import Mathlib

/-!
# The talk handler (`src/app/handlers/talk.js`)

A shallow embedding of the handler `exec` and of its gate `check`, and the
properties of one conversation turn that follow from the code.

* JavaScript strings are sequences of UTF-16 code units: `Str = List Nat`.
* The collaborators that the handler imports (prompt store, history store,
  completion client, the methods of the prompt and of the context) are
  parameters of the embedding: arbitrary, possibly failing, possibly stateful
  functions over an abstract collaborator state `σ` and an abstract prompt
  type `P`.
* Every collaborator call is recorded, with its outcome, in an effect trace,
  in the order in which the calls complete. An awaited call is sequenced like
  any other: the handler goes on only when the call has completed.
* The calls of the `catch` block, `console.error` and `context.pushError`, are
  taken to return normally.
* For the order in which the pushes are issued and settle, the handler is
  embedded a second time with the call and the `await` of an awaited call as
  two steps (`Timed`), and shown to follow the first embedding.
-/

namespace Talk

/-! ## Strings and the regular expression of line 74 -/

/-- A JavaScript string: its UTF-16 code units, in order. -/
abbrev Str := List Nat

/-- The class `\s` of a regular expression without the `u` flag: the white
space and line terminator code units of ECMAScript. -/
def isWhiteSpace (u : Nat) : Bool :=
  u == 9 || u == 10 || u == 11 || u == 12 || u == 13 || u == 32 || u == 160
    || u == 5760 || (8192 ≤ u && u ≤ 8202) || u == 8232 || u == 8233
    || u == 8239 || u == 8287 || u == 12288 || u == 65279

/-- The class `[\s\S]`: a code unit that is in `\s` or in its complement `\S`. -/
def spaceOrNonSpace (u : Nat) : Bool :=
  isWhiteSpace u || !isWhiteSpace u

/-- The greedy quantifier `{_,max}` over a class, tried at the start of `s`: the
longest run of at most `max` leading code units that are all in the class. -/
def greedyRun (cls : Nat → Bool) : Nat → Str → Str
  | 0, _ => []
  | _ + 1, [] => []
  | n + 1, u :: s => if cls u then u :: greedyRun cls n s else []

/-- The matches of the global regular expression `/[cls]{1,max}/g` in `s`, from
left to right, as `String.prototype.match` collects them: at each position the
greedy run is tried; a run of at least one unit is a match and the search goes
on right after it; when nothing matches at a position the search moves one unit
on. Every round consumes at least one unit, so `s.length` rounds are enough;
the first argument bounds the rounds. -/
def matchesFrom (cls : Nat → Bool) (max : Nat) : Nat → Str → List Str
  | 0, _ => []
  | _ + 1, [] => []
  | fuel + 1, u :: rest =>
    let m := greedyRun cls max (u :: rest)
    if m.length < 1 then matchesFrom cls max fuel rest
    else m :: matchesFrom cls max fuel ((u :: rest).drop m.length)

/-- The call `text.match(/[\s\S]{1,1000}/g)` on a string: the array of all
matches, or `null` (here `none`) when there is no match. -/
def stringMatch (text : Str) : Option (List Str) :=
  let ms := matchesFrom spaceOrNonSpace 1000 text.length text
  if ms.isEmpty then none else some ms

/-- The expression `m || []` for a match result `m`: an array, even an empty
one, is truthy; `null` is falsy. -/
def orEmptyArray : Option (List Str) → List Str
  | some ms => ms
  | none => []

/-- The chunks of line 74 for a string `text`:
`text.match(/[\s\S]{1,1000}/g) || []`. -/
def chunksOf (text : Str) : List Str :=
  orEmptyArray (stringMatch text)

/-! ## Values, context and collaborators -/

/-- A thrown JavaScript value: the `TypeError` that the language raises itself
(a method call on `undefined` or `null`), or an error of a collaborator. -/
inductive Err
  | typeError
  | thrown (code : Nat)
  deriving DecidableEq, Repr

/-- The command constants imported from `../commands/index.js`. -/
inductive Command
  | COMMAND_BOT_CONTINUE
  | COMMAND_BOT_FORGET
  | COMMAND_BOT_TALK
  deriving DecidableEq, Repr

/-- The role constants imported from `../../services/openai.js`. -/
inductive Role
  | ROLE_AI
  | ROLE_HUMAN
  deriving DecidableEq, Repr

/-- The value bound to `text` by the destructuring of line 60: a string, or
`undefined` / `null` when the completion result carries no text. -/
inductive JSText
  | undefined
  | null
  | str (s : Str)
  deriving DecidableEq, Repr

/-- The object that `generateCompletion` resolves to. -/
structure Completion where
  text : JSText
  isFinishReasonStop : Bool
  deriving DecidableEq, Repr

/-- The field `context.event`. -/
structure MessageEvent where
  isText : Bool
  isImage : Bool
  deriving DecidableEq, Repr

/-- The field `context.source.bot`. -/
structure Bot where
  isActivated : Bool
  deriving DecidableEq, Repr

/-- The field `context.source`. -/
structure Source where
  bot : Bot
  deriving DecidableEq, Repr

/-- The fields of the `Context` that the handler reads. -/
structure Context where
  id : Nat
  userId : Nat
  event : MessageEvent
  trimmedText : Str
  hasCommand : Command → Bool
  hasBotName : Bool
  source : Source

/-- The collaborators of the handler, over a collaborator state `σ` (the
stores, the network, the channel) and a prompt type `P`. A call takes the
state, returns normally or throws, and leaves a new state. The prompt is a
mutable object that `write` and `writeImage` return for chaining: a mutating
call hands back the prompt as it is after the call. -/
structure Collaborators (σ P : Type) where
  /-- The value of `config.BOT_NAME`. -/
  BOT_NAME : Str
  /-- The value of `t('__COMPLETION_DEFAULT_AI_TONE')(config.BOT_TONE)`. -/
  tone : Str
  /-- The call `getPrompt(userId)`. -/
  getPrompt : Nat → σ → Except Err P × σ
  /-- The call `prompt.write(role, text)`; `none` is the call with one argument. -/
  write : P → Role → Option Str → σ → Except Err P × σ
  /-- The call `prompt.writeImage(role, text)`. -/
  writeImage : P → Role → Str → σ → Except Err P × σ
  /-- The awaited call `generateCompletion` on the prompt. -/
  generateCompletion : P → σ → Except Err Completion × σ
  /-- The call `prompt.patch(text)`. -/
  patch : P → JSText → σ → Except Err P × σ
  /-- The call `setPrompt(userId, prompt)`. -/
  setPrompt : Nat → P → σ → Except Err Unit × σ
  /-- The call `updateHistory(id, (history) => history.write(name, text))`. -/
  updateHistory : Nat → Str → JSText → σ → Except Err Unit × σ
  /-- The awaited call `context.pushText(text, actions)`. -/
  pushText : Str → List Command → σ → Except Err Unit × σ
  /-- The call `context.pushError(err)`: by spec §6 a fire-and-forget notice
  that returns nothing. It is not awaited and is taken to return normally. -/
  pushError : Err → σ → σ

deriving instance DecidableEq for Except

/-- One completed collaborator call: its arguments and its outcome. -/
inductive Effect (P : Type)
  | getPrompt (userId : Nat) (r : Except Err P)
  | write (prompt : P) (role : Role) (text : Option Str) (r : Except Err P)
  | writeImage (prompt : P) (role : Role) (text : Str) (r : Except Err P)
  | generateCompletion (prompt : P) (r : Except Err Completion)
  | patch (prompt : P) (text : JSText) (r : Except Err P)
  | setPrompt (userId : Nat) (prompt : P) (r : Except Err Unit)
  | updateHistory (id : Nat) (name : Str) (text : JSText) (r : Except Err Unit)
  | pushText (text : Str) (actions : List Command) (r : Except Err Unit)
  | consoleError (err : Err)
  | pushError (err : Err)
  deriving DecidableEq

/-- The state of a run: the collaborator state and the effect trace so far. -/
structure Run (σ P : Type) where
  world : σ
  trace : List (Effect P)

/-- A computation of the handler: it takes the run state and returns normally
or throws; the state reached is kept in both cases. -/
def Eff (σ P α : Type) : Type :=
  Run σ P → Except Err α × Run σ P

namespace Eff

variable {σ P α β : Type}

/-- Return a value without any effect. -/
def ret (a : α) : Eff σ P α :=
  fun st => (.ok a, st)

/-- Sequencing: a throw of the first computation skips the second. -/
def andThen (m : Eff σ P α) (f : α → Eff σ P β) : Eff σ P β :=
  fun st =>
    match m st with
    | (.ok a, st1) => f a st1
    | (.error e, st1) => (.error e, st1)

/-- The statement `throw e`. -/
def raise (e : Err) : Eff σ P α :=
  fun st => (.error e, st)

/-- The statement `try body catch (err) handler`. -/
def tryCatch (body : Eff σ P α) (handler : Err → Eff σ P α) : Eff σ P α :=
  fun st =>
    match body st with
    | (.ok a, st1) => (.ok a, st1)
    | (.error e, st1) => handler e st1

/-- A call of a collaborator: run it on the collaborator state and append the
completed call, with its outcome, to the trace. -/
def call (f : σ → Except Err α × σ) (ev : Except Err α → Effect P) : Eff σ P α :=
  fun st =>
    let out := f st.world
    (out.1, ⟨out.2, st.trace ++ [ev out.1]⟩)

/-- A call that cannot throw: run it and append the given effect to the trace. -/
def notify (f : σ → σ) (ev : Effect P) : Eff σ P Unit :=
  fun st => (.ok (), ⟨f st.world, st.trace ++ [ev]⟩)

instance : Monad (Eff σ P) where
  pure := ret
  bind := andThen

end Eff

/-! ## The handler -/

/-- The result of `exec`: the value `false`, or the context. -/
inductive ExecResult
  | notHandled
  | handled (context : Context)

/-- Lines 22-26: the gate `check`. -/
def check (context : Context) : Bool :=
  context.hasCommand Command.COMMAND_BOT_TALK
    || context.hasBotName
    || context.source.bot.isActivated

/-- Truthiness of `chunks[i]`: `undefined` (no such element) and the empty
string are falsy, every other string is truthy. -/
def truthy : Option Str → Bool
  | none => false
  | some s => !s.isEmpty

/-- The method call `text.match(/[\s\S]{1,1000}/g)` of line 74 on the value
bound to `text`: a `TypeError` when `text` is `undefined` or `null`. -/
def textMatch {σ P : Type} : JSText → Eff σ P (Option (List Str))
  | JSText.str s => pure (stringMatch s)
  | JSText.undefined => Eff.raise Err.typeError
  | JSText.null => Eff.raise Err.typeError

/-- Lines 82-84: the loop over the chunks after the first, here over the list
of the elements `chunks[1]`, `chunks[2]`, ... in index order. -/
def pushRest {σ P : Type} (c : Collaborators σ P) : List Str → Eff σ P Unit
  | [] => pure ()
  | chunk :: rest => do
    Eff.call (c.pushText chunk []) (Effect.pushText chunk [])
    pushRest c rest

/-- Lines 43-84: the body of the `try` block, on the prompt that line 40 loaded. -/
def tryBody {σ P : Type} (c : Collaborators σ P) (context : Context) (prompt : P) :
    Eff σ P Unit := do
  let prompt ← (if context.event.isText then do
      let p ← Eff.call (c.write prompt Role.ROLE_HUMAN (some (c.tone ++ context.trimmedText)))
        (Effect.write prompt Role.ROLE_HUMAN (some (c.tone ++ context.trimmedText)))
      Eff.call (c.write p Role.ROLE_AI none) (Effect.write p Role.ROLE_AI none)
    else pure prompt)
  let prompt ← (if context.event.isImage then do
      let p ← Eff.call (c.writeImage prompt Role.ROLE_HUMAN context.trimmedText)
        (Effect.writeImage prompt Role.ROLE_HUMAN context.trimmedText)
      Eff.call (c.write p Role.ROLE_AI none) (Effect.write p Role.ROLE_AI none)
    else pure prompt)
  let completion ← Eff.call (c.generateCompletion prompt) (Effect.generateCompletion prompt)
  let text := completion.text
  let isFinishReasonStop := completion.isFinishReasonStop
  let patched ← Eff.call (c.patch prompt text) (Effect.patch prompt text)
  Eff.call (c.setPrompt context.userId patched) (Effect.setPrompt context.userId patched)
  Eff.call (c.updateHistory context.id c.BOT_NAME text)
    (Effect.updateHistory context.id c.BOT_NAME text)
  let actions := if isFinishReasonStop
    then [Command.COMMAND_BOT_FORGET]
    else [Command.COMMAND_BOT_CONTINUE]
  let matched ← textMatch text
  let chunks := orEmptyArray matched
  match chunks[0]? with
  | some first =>
    if truthy (some first) then
      Eff.call (c.pushText first actions) (Effect.pushText first actions)
  | none => pure ()
  pushRest c (chunks.drop 1)

/-- Lines 33-92: the handler `exec`. -/
def exec {σ P : Type} (c : Collaborators σ P) (context : Context) :
    Eff σ P ExecResult := do
  if !check context then
    return ExecResult.notHandled
  let prompt ← Eff.call (c.getPrompt context.userId) (Effect.getPrompt context.userId)
  Eff.tryCatch (tryBody c context prompt) (fun err => do
    Eff.notify id (Effect.consoleError err)
    Eff.notify (c.pushError err) (Effect.pushError err))
  return ExecResult.handled context

/-- The run of `exec` on a context, from a collaborator state and with an
empty trace: the value returned or the error raised to the caller, and the
collaborator state and trace at the end. -/
def runExec {σ P : Type} (c : Collaborators σ P) (context : Context) (w : σ) :
    Except Err ExecResult × Run σ P :=
  exec c context ⟨w, []⟩

/-! ## Reading a trace -/

/-- The collaborator that a recorded call went to. -/
inductive Kind
  | getPrompt
  | write
  | writeImage
  | generateCompletion
  | patch
  | setPrompt
  | updateHistory
  | pushText
  | consoleError
  | pushError
  deriving DecidableEq, Repr

namespace Effect

variable {P : Type}

/-- The collaborator of a recorded call. -/
def kind : Effect P → Kind
  | getPrompt _ _ => Kind.getPrompt
  | write _ _ _ _ => Kind.write
  | writeImage _ _ _ _ => Kind.writeImage
  | generateCompletion _ _ => Kind.generateCompletion
  | patch _ _ _ => Kind.patch
  | setPrompt _ _ _ => Kind.setPrompt
  | updateHistory _ _ _ _ => Kind.updateHistory
  | pushText _ _ _ => Kind.pushText
  | consoleError _ => Kind.consoleError
  | pushError _ => Kind.pushError

/-- The error of an outcome, if it is one. -/
def errorOf {α : Type} : Except Err α → Option Err
  | Except.ok _ => none
  | Except.error e => some e

/-- The error that a recorded call threw, if it threw. -/
def threw : Effect P → Option Err
  | getPrompt _ r => errorOf r
  | write _ _ _ r => errorOf r
  | writeImage _ _ _ r => errorOf r
  | generateCompletion _ r => errorOf r
  | patch _ _ r => errorOf r
  | setPrompt _ _ r => errorOf r
  | updateHistory _ _ _ r => errorOf r
  | pushText _ _ r => errorOf r
  | consoleError _ => none
  | pushError _ => none

/-- The arguments and the outcome of a recorded `pushText` call. -/
def pushTextCall : Effect P → Option (Str × List Command × Option Err)
  | pushText text actions r => some (text, actions, errorOf r)
  | _ => none

/-- The arguments of a recorded `setPrompt` call. -/
def setPromptCall : Effect P → Option (Nat × P)
  | setPrompt userId prompt _ => some (userId, prompt)
  | _ => none

end Effect

/-- The `pushText` calls of a trace, in call order: text, actions, and the
error if the call failed. -/
def pushTexts {P : Type} (trace : List (Effect P)) : List (Str × List Command × Option Err) :=
  trace.filterMap Effect.pushTextCall

/-- The `setPrompt` calls of a trace, in call order: user id and prompt. -/
def setPromptCalls {P : Type} (trace : List (Effect P)) : List (Nat × P) :=
  trace.filterMap Effect.setPromptCall

/-- The number of calls of a trace that went to the given collaborator. -/
def callCount {P : Type} (k : Kind) (trace : List (Effect P)) : Nat :=
  (trace.map Effect.kind).count k

/-! ## The blocks of the `try` body -/

/-- Lines 44-51: the block for a text event. -/
def textBlock {σ P : Type} (c : Collaborators σ P) (context : Context) (prompt : P) :
    Eff σ P P :=
  if context.event.isText then do
    let p ← Eff.call (c.write prompt Role.ROLE_HUMAN (some (c.tone ++ context.trimmedText)))
      (Effect.write prompt Role.ROLE_HUMAN (some (c.tone ++ context.trimmedText)))
    Eff.call (c.write p Role.ROLE_AI none) (Effect.write p Role.ROLE_AI none)
  else pure prompt

/-- Lines 53-57: the block for an image event. -/
def imageBlock {σ P : Type} (c : Collaborators σ P) (context : Context) (prompt : P) :
    Eff σ P P :=
  if context.event.isImage then do
    let p ← Eff.call (c.writeImage prompt Role.ROLE_HUMAN context.trimmedText)
      (Effect.writeImage prompt Role.ROLE_HUMAN context.trimmedText)
    Eff.call (c.write p Role.ROLE_AI none) (Effect.write p Role.ROLE_AI none)
  else pure prompt

/-- Lines 68-70: the follow-up actions for a stop flag. -/
def actionsFor (isFinishReasonStop : Bool) : List Command :=
  if isFinishReasonStop
    then [Command.COMMAND_BOT_FORGET]
    else [Command.COMMAND_BOT_CONTINUE]

/-- Lines 76-84: the delivery of a chunk array with the given actions. -/
def deliver {σ P : Type} (c : Collaborators σ P) (chunks : List Str)
    (actions : List Command) : Eff σ P Unit := do
  match chunks[0]? with
  | some first =>
    if truthy (some first) then
      Eff.call (c.pushText first actions) (Effect.pushText first actions)
  | none => pure ()
  pushRest c (chunks.drop 1)

/-- Lines 59-84: the `try` body from the completion call on. -/
def completionBlock {σ P : Type} (c : Collaborators σ P) (context : Context) (prompt : P) :
    Eff σ P Unit := do
  let completion ← Eff.call (c.generateCompletion prompt) (Effect.generateCompletion prompt)
  let patched ← Eff.call (c.patch prompt completion.text) (Effect.patch prompt completion.text)
  Eff.call (c.setPrompt context.userId patched) (Effect.setPrompt context.userId patched)
  Eff.call (c.updateHistory context.id c.BOT_NAME completion.text)
    (Effect.updateHistory context.id c.BOT_NAME completion.text)
  let matched ← textMatch completion.text
  deliver c (orEmptyArray matched) (actionsFor completion.isFinishReasonStop)

/-- The `pushText` calls that deliver a chunk array: the first chunk with the
actions, every later chunk with no action. -/
def deliveries (chunks : List Str) (actions : List Command) : List (Str × List Command) :=
  match chunks with
  | [] => []
  | first :: rest => (first, actions) :: rest.map (fun chunk => (chunk, []))

/-- The record of a `pushText` call that completed normally. -/
def pushed {P : Type} (x : Str × List Command) : Effect P :=
  Effect.pushText x.1 x.2 (Except.ok ())

/-- The four calls of lines 60-65 when all of them succeed: the completion
resolves to `completion` and `patch` leaves the prompt `patched`. -/
def committed {σ P : Type} (c : Collaborators σ P) (context : Context) (prompt : P)
    (completion : Completion) (patched : P) : List (Effect P) :=
  [Effect.generateCompletion prompt (Except.ok completion),
    Effect.patch prompt completion.text (Except.ok patched),
    Effect.setPrompt context.userId patched (Except.ok ()),
    Effect.updateHistory context.id c.BOT_NAME completion.text (Except.ok ())]

/-- The runs of lines 59-84 on a prompt: the outcome `r` of the block and the
calls `post` that it records, one alternative per place where the block can
stop. -/
def CompletionRun {σ P : Type} (c : Collaborators σ P) (context : Context) (prompt : P)
    (r : Except Err Unit) (post : List (Effect P)) : Prop :=
  (∃ e, r = Except.error e
      ∧ post = [Effect.generateCompletion prompt (Except.error e)])
    ∨ (∃ completion e, r = Except.error e
      ∧ (∃ w, (c.patch prompt completion.text w).1 = Except.error e)
      ∧ post = [Effect.generateCompletion prompt (Except.ok completion),
          Effect.patch prompt completion.text (Except.error e)])
    ∨ (∃ completion patched e, r = Except.error e
      ∧ (∃ w, (c.patch prompt completion.text w).1 = Except.ok patched)
      ∧ post = [Effect.generateCompletion prompt (Except.ok completion),
          Effect.patch prompt completion.text (Except.ok patched),
          Effect.setPrompt context.userId patched (Except.error e)])
    ∨ (∃ completion patched e, r = Except.error e
      ∧ (∃ w, (c.patch prompt completion.text w).1 = Except.ok patched)
      ∧ post = [Effect.generateCompletion prompt (Except.ok completion),
          Effect.patch prompt completion.text (Except.ok patched),
          Effect.setPrompt context.userId patched (Except.ok ()),
          Effect.updateHistory context.id c.BOT_NAME completion.text (Except.error e)])
    ∨ (∃ completion patched, (∀ t, completion.text ≠ JSText.str t)
      ∧ (∃ w, (c.patch prompt completion.text w).1 = Except.ok patched)
      ∧ r = Except.error Err.typeError
      ∧ post = committed c context prompt completion patched)
    ∨ (∃ completion patched t, completion.text = JSText.str t
      ∧ (∃ w, (c.patch prompt completion.text w).1 = Except.ok patched)
      ∧ r = Except.ok ()
      ∧ post = committed c context prompt completion patched
          ++ (deliveries (chunksOf t) (actionsFor completion.isFinishReasonStop)).map pushed)
    ∨ (∃ completion patched t j x e, completion.text = JSText.str t
      ∧ (∃ w, (c.patch prompt completion.text w).1 = Except.ok patched)
      ∧ (deliveries (chunksOf t) (actionsFor completion.isFinishReasonStop))[j]? = some x
      ∧ r = Except.error e
      ∧ post = committed c context prompt completion patched
          ++ ((deliveries (chunksOf t) (actionsFor completion.isFinishReasonStop)).take j).map
              pushed
          ++ [Effect.pushText x.1 x.2 (Except.error e)])

/-- A list of recorded calls of which the last threw `e` and all the others
completed normally. -/
def FailsLast {P : Type} (e : Err) (l : List (Effect P)) : Prop :=
  ∃ good bad, l = good ++ [bad] ∧ (∀ ev ∈ good, ev.threw = none) ∧ bad.threw = some e

/-- The runs of the `try` body: either a `write` or `writeImage` call of lines
44-57 fails, or these calls succeed and lines 59-84 run on the prompt that they
leave. -/
def TryRun {σ P : Type} (c : Collaborators σ P) (context : Context)
    (r : Except Err Unit) (tr : List (Effect P)) : Prop :=
  ∃ pre : List (Effect P),
    (∀ ev ∈ pre, ev.kind = Kind.write ∨ ev.kind = Kind.writeImage)
      ∧ ((∃ e, r = Except.error e ∧ tr = pre ∧ FailsLast e pre)
        ∨ (∃ prompt post, (∀ ev ∈ pre, ev.threw = none) ∧ tr = pre ++ post
            ∧ CompletionRun c context prompt r post))

/-- The calls of the `catch` block of lines 85-89 after the `try` body ended
with outcome `r`: none when the body completed, the log and the error notice
when it threw. -/
def caught {P : Type} : Except Err Unit → List (Effect P)
  | Except.ok _ => []
  | Except.error e => [Effect.consoleError e, Effect.pushError e]

/-! ## The prompt of spec §3 and sample collaborators -/

/-- Modelled from the spec: an entry of the Prompt of §3, whose class lives in
`../prompt/index.js`, outside the handler: a role, the text, which is absent
while the entry is an open placeholder, and whether it is an image turn. -/
structure Entry where
  role : Role
  content : Option Str
  isImage : Bool
  deriving DecidableEq, Repr

/-- Modelled from the spec: the Prompt of §3, an ordered sequence of role-tagged
entries. -/
abbrev Prompt := List Entry

/-- Modelled from the spec: `write(role, text)` of §3 appends an entry for the
role; without a text it opens a placeholder. -/
def Prompt.write (prompt : Prompt) (role : Role) (text : Option Str) : Prompt :=
  prompt ++ [⟨role, text, false⟩]

/-- Modelled from the spec: `writeImage(role, caption)` of §3 appends an entry
for an image turn with the caption text. -/
def Prompt.writeImage (prompt : Prompt) (role : Role) (caption : Str) : Prompt :=
  prompt ++ [⟨role, some caption, true⟩]

/-- Fill the first open AI placeholder of a list of entries with a text. -/
def fillFirstOpen (text : Str) : List Entry → List Entry
  | [] => []
  | entry :: entries =>
    if entry.role = Role.ROLE_AI ∧ entry.content = none
      then { entry with content := some text } :: entries
      else entry :: fillFirstOpen text entries

/-- Modelled from the spec: `patch(text)` of §3 fills the most recently opened
AI placeholder with the generated text. -/
def Prompt.patch (prompt : Prompt) (text : Str) : Prompt :=
  (fillFirstOpen text prompt.reverse).reverse

/-- What the sample collaborators do in a run: the prompt that `getPrompt`
finds stored, whether `getPrompt` throws, the outcome of `generateCompletion`,
and the position (from 0) of the `pushText` call that fails, if one does. -/
structure Script where
  stored : Prompt
  getPromptFails : Bool
  completion : Except Err Completion
  failAt : Option Nat

/-- Sample collaborators over the prompt of spec §3. The collaborator state is
the number of `pushText` calls made so far; every call succeeds unless the
script says otherwise. -/
def scripted (script : Script) : Collaborators Nat Prompt where
  BOT_NAME := [66, 111, 116]
  tone := [58, 41, 32]
  getPrompt := fun _ n =>
    (if script.getPromptFails then Except.error (Err.thrown 1) else Except.ok script.stored, n)
  write := fun prompt role text n => (Except.ok (Prompt.write prompt role text), n)
  writeImage := fun prompt role text n => (Except.ok (Prompt.writeImage prompt role text), n)
  generateCompletion := fun _ n => (script.completion, n)
  patch := fun prompt text n =>
    (Except.ok (match text with
      | JSText.str t => Prompt.patch prompt t
      | _ => prompt), n)
  setPrompt := fun _ _ n => (Except.ok (), n)
  updateHistory := fun _ _ _ n => (Except.ok (), n)
  pushText := fun _ _ n =>
    (if script.failAt = some n then Except.error (Err.thrown 2) else Except.ok (), n + 1)
  pushError := fun _ n => n

/-- A text event with the text "Hello" that mentions the bot name. -/
def helloContext : Context where
  id := 7
  userId := 1
  event := ⟨true, false⟩
  trimmedText := [72, 101, 108, 108, 111]
  hasCommand := fun _ => false
  hasBotName := true
  source := ⟨⟨false⟩⟩

/-- A stored prompt with one earlier exchange. -/
def storedPrompt : Prompt :=
  [⟨Role.ROLE_HUMAN, some [79, 108, 100], false⟩, ⟨Role.ROLE_AI, some [89, 101, 115], false⟩]

/-- The stored prompt after the two writes of lines 45-50 for `helloContext`:
the human entry with the tone prefix and "Hello", and the open placeholder. -/
def openedPrompt : Prompt :=
  storedPrompt ++ [⟨Role.ROLE_HUMAN, some [58, 41, 32, 72, 101, 108, 108, 111], false⟩,
    ⟨Role.ROLE_AI, none, false⟩]

/-- A text of 1001 code units, which splits into two chunks. -/
def longText : Str := List.replicate 1001 120

/-- The run of `exec` on `helloContext` with the sample collaborators of a
script. -/
abbrev sampleRun (script : Script) : Except Err ExecResult × Run Nat Prompt :=
  runExec (scripted script) helloContext 0

/-! ## The handler with its promises

The embedding above records a call when it has completed. To tell when a call
is made from when its promise settles, the handler is embedded a second time,
with the two steps of `await f(x)` apart: the call `f(x)` is issued and hands
back a pending promise, and `await` settles the promise. The timeline of a run
records both moments. A program that issued a second call before awaiting the
first would show two issues in a row. -/

/-- A call that the handler awaits, as it is issued: the collaborator and the
arguments. -/
inductive Awaited (P : Type)
  | generateCompletion (prompt : P)
  | pushText (text : Str) (actions : List Command)
  deriving DecidableEq

/-- A moment of a run: an awaited call is issued and its promise is pending,
or a call has completed: a synchronous call has returned or thrown, or the
promise of an awaited call has settled. -/
inductive Moment (P : Type)
  | issued (call : Awaited P)
  | completed (ev : Effect P)
  deriving DecidableEq

/-- The state of a run with promises: the collaborator state and the timeline
so far. -/
structure TimedRun (σ P : Type) where
  world : σ
  timeline : List (Moment P)

/-- A pending promise: what the collaborator will have done, and the outcome,
once the promise settles. -/
structure Promise (σ α : Type) where
  settle : σ → Except Err α × σ

/-- A computation of the handler over a timeline. -/
def Timed (σ P α : Type) : Type :=
  TimedRun σ P → Except Err α × TimedRun σ P

namespace Timed

variable {σ P α β : Type}

/-- Return a value without any effect. -/
def ret (a : α) : Timed σ P α :=
  fun st => (.ok a, st)

/-- Sequencing: a throw of the first computation skips the second. -/
def andThen (m : Timed σ P α) (f : α → Timed σ P β) : Timed σ P β :=
  fun st =>
    match m st with
    | (.ok a, st1) => f a st1
    | (.error e, st1) => (.error e, st1)

/-- The statement `throw e`. -/
def raise (e : Err) : Timed σ P α :=
  fun st => (.error e, st)

/-- The statement `try body catch (err) handler`. -/
def tryCatch (body : Timed σ P α) (handler : Err → Timed σ P α) : Timed σ P α :=
  fun st =>
    match body st with
    | (.ok a, st1) => (.ok a, st1)
    | (.error e, st1) => handler e st1

/-- A synchronous call of a collaborator: run it and record it as completed. -/
def call (f : σ → Except Err α × σ) (ev : Except Err α → Effect P) : Timed σ P α :=
  fun st =>
    let out := f st.world
    (out.1, ⟨out.2, st.timeline ++ [Moment.completed (ev out.1)]⟩)

/-- A call that cannot throw: run it and record it as completed. -/
def notify (f : σ → σ) (ev : Effect P) : Timed σ P Unit :=
  fun st => (.ok (), ⟨f st.world, st.timeline ++ [Moment.completed ev]⟩)

/-- The call of an asynchronous collaborator: record the issue and hand back
the pending promise, which has not settled yet. -/
def start (issue : Awaited P) (f : σ → Except Err α × σ) : Timed σ P (Promise σ α) :=
  fun st => (.ok ⟨f⟩, ⟨st.world, st.timeline ++ [Moment.issued issue]⟩)

/-- The expression `await promise`: the handler goes on when the promise has
settled; the settled call is recorded as completed, and a rejection is thrown. -/
def await (promise : Promise σ α) (ev : Except Err α → Effect P) : Timed σ P α :=
  fun st =>
    let out := promise.settle st.world
    (out.1, ⟨out.2, st.timeline ++ [Moment.completed (ev out.1)]⟩)

instance : Monad (Timed σ P) where
  pure := ret
  bind := andThen

/-- The method call `text.match(/[\s\S]{1,1000}/g)` of line 74. -/
def textMatch : JSText → Timed σ P (Option (List Str))
  | JSText.str s => pure (stringMatch s)
  | JSText.undefined => raise Err.typeError
  | JSText.null => raise Err.typeError

/-- Lines 82-84: `await context.pushText(chunks[i], [])` for the chunks after
the first, in index order. -/
def pushRest (c : Collaborators σ P) : List Str → Timed σ P Unit
  | [] => pure ()
  | chunk :: rest => do
    let promise ← start (Awaited.pushText chunk []) (c.pushText chunk [])
    await promise (Effect.pushText chunk [])
    pushRest c rest

/-- Lines 43-84: the body of the `try` block, with the two awaited calls of
lines 60 and 78 issued and then awaited. -/
def tryBody (c : Collaborators σ P) (context : Context) (prompt : P) :
    Timed σ P Unit := do
  let prompt ← (if context.event.isText then do
      let p ← call (c.write prompt Role.ROLE_HUMAN (some (c.tone ++ context.trimmedText)))
        (Effect.write prompt Role.ROLE_HUMAN (some (c.tone ++ context.trimmedText)))
      call (c.write p Role.ROLE_AI none) (Effect.write p Role.ROLE_AI none)
    else pure prompt)
  let prompt ← (if context.event.isImage then do
      let p ← call (c.writeImage prompt Role.ROLE_HUMAN context.trimmedText)
        (Effect.writeImage prompt Role.ROLE_HUMAN context.trimmedText)
      call (c.write p Role.ROLE_AI none) (Effect.write p Role.ROLE_AI none)
    else pure prompt)
  let promise ← start (Awaited.generateCompletion prompt) (c.generateCompletion prompt)
  let completion ← await promise (Effect.generateCompletion prompt)
  let text := completion.text
  let isFinishReasonStop := completion.isFinishReasonStop
  let patched ← call (c.patch prompt text) (Effect.patch prompt text)
  call (c.setPrompt context.userId patched) (Effect.setPrompt context.userId patched)
  call (c.updateHistory context.id c.BOT_NAME text)
    (Effect.updateHistory context.id c.BOT_NAME text)
  let actions := if isFinishReasonStop
    then [Command.COMMAND_BOT_FORGET]
    else [Command.COMMAND_BOT_CONTINUE]
  let matched ← textMatch text
  let chunks := orEmptyArray matched
  match chunks[0]? with
  | some first =>
    if truthy (some first) then do
      let promise ← start (Awaited.pushText first actions) (c.pushText first actions)
      await promise (Effect.pushText first actions)
  | none => pure ()
  pushRest c (chunks.drop 1)

/-- Lines 33-92: the handler `exec`. -/
def exec (c : Collaborators σ P) (context : Context) : Timed σ P ExecResult := do
  if !check context then
    return ExecResult.notHandled
  let prompt ← call (c.getPrompt context.userId) (Effect.getPrompt context.userId)
  tryCatch (tryBody c context prompt) (fun err => do
    notify id (Effect.consoleError err)
    notify (c.pushError err) (Effect.pushError err))
  return ExecResult.handled context

end Timed

/-- The run of `exec` with its promises on a context, from a collaborator state
and with an empty timeline. -/
def runTimed {σ P : Type} (c : Collaborators σ P) (context : Context) (w : σ) :
    Except Err ExecResult × TimedRun σ P :=
  Timed.exec c context ⟨w, []⟩

/-- The moments of a completed call: an awaited call is issued first, a
synchronous call has the one moment. -/
def momentsOf {P : Type} : Effect P → List (Moment P)
  | Effect.generateCompletion prompt r =>
    [Moment.issued (Awaited.generateCompletion prompt),
      Moment.completed (Effect.generateCompletion prompt r)]
  | Effect.pushText text actions r =>
    [Moment.issued (Awaited.pushText text actions),
      Moment.completed (Effect.pushText text actions r)]
  | ev => [Moment.completed ev]

/-- The timeline in which every call of a trace is awaited as soon as it is
issued. -/
def awaitedAtOnce {P : Type} (trace : List (Effect P)) : List (Moment P) :=
  trace.flatMap momentsOf

/-- A timed computation follows an untimed one: from matching states it has
the same outcome and collaborator state, and its timeline is the trace with
every awaited call issued right before it completes. -/
def Follows {σ P α : Type} (mt : Timed σ P α) (m : Eff σ P α) : Prop :=
  ∀ (w : σ) (tr : List (Effect P)),
    mt ⟨w, awaitedAtOnce tr⟩
      = ((m ⟨w, tr⟩).1, ⟨(m ⟨w, tr⟩).2.world, awaitedAtOnce (m ⟨w, tr⟩).2.trace⟩)

/-- What a moment says about a `pushText` call: the call is issued with a
text, or its promise settles, normally or with an error. -/
inductive PushMoment
  | issue (text : Str)
  | settle (text : Str) (error : Option Err)
  deriving DecidableEq, Repr

/-- Whether a `pushText` moment is the issue of a call. -/
def PushMoment.isIssue : PushMoment → Bool
  | PushMoment.issue _ => true
  | PushMoment.settle _ _ => false

/-- Whether a `pushText` moment is the settling of a promise. -/
def PushMoment.isSettle : PushMoment → Bool
  | PushMoment.issue _ => false
  | PushMoment.settle _ _ => true

/-- The `pushText` moment of a moment of the timeline, if it is one. -/
def Moment.pushMoment {P : Type} : Moment P → Option PushMoment
  | Moment.issued (Awaited.pushText text _) => some (PushMoment.issue text)
  | Moment.completed (Effect.pushText text _ r) =>
    some (PushMoment.settle text (Effect.errorOf r))
  | _ => none

/-- The `pushText` moments of a timeline, in order. -/
def pushMoments {P : Type} (timeline : List (Moment P)) : List PushMoment :=
  timeline.filterMap Moment.pushMoment

/-- The completed calls of a timeline, in order. -/
def completedCalls {P : Type} (timeline : List (Moment P)) : List (Effect P) :=
  timeline.filterMap (fun m => match m with
    | Moment.completed ev => some ev
    | Moment.issued _ => none)

/-- The run with promises of `exec` on `helloContext` with the sample
collaborators of a script. -/
abbrev sampleTimedRun (script : Script) : Except Err ExecResult × TimedRun Nat Prompt :=
  runTimed (scripted script) helloContext 0

/-! ## The chunks of a string -/

theorem spaceOrNonSpace_eq_true (u : Nat) : spaceOrNonSpace u = true := by
  unfold spaceOrNonSpace
  cases isWhiteSpace u <;> rfl

theorem greedyRun_eq_take (n : Nat) (s : Str) :
    greedyRun spaceOrNonSpace n s = s.take n := by
  induction n generalizing s with
  | zero => cases s <;> rfl
  | succ n ih =>
    cases s with
    | nil => rfl
    | cons u s => simp [greedyRun, spaceOrNonSpace_eq_true, ih]

theorem matchesFrom_cons (fuel u : Nat) (rest : Str) :
    matchesFrom spaceOrNonSpace 1000 (fuel + 1) (u :: rest)
      = (u :: rest).take 1000
        :: matchesFrom spaceOrNonSpace 1000 fuel ((u :: rest).drop 1000) := by
  have hlen : ¬ ((u :: rest).take 1000).length < 1 := by simp
  have hdrop : (u :: rest).drop ((u :: rest).take 1000).length = (u :: rest).drop 1000 := by
    by_cases h : 1000 ≤ (u :: rest).length
    · have hk : ((u :: rest).take 1000).length = 1000 := by
        rw [List.length_take]
        omega
      rw [hk]
    · rw [List.drop_eq_nil_of_le (by omega : (u :: rest).length ≤ 1000),
        List.drop_eq_nil_of_le]
      rw [List.length_take]
      omega
  simp only [matchesFrom, greedyRun_eq_take]
  rw [if_neg hlen, hdrop]

theorem matchesFrom_flatten (fuel : Nat) (s : Str) (h : s.length ≤ fuel) :
    (matchesFrom spaceOrNonSpace 1000 fuel s).flatten = s := by
  induction fuel generalizing s with
  | zero =>
    have : s = [] := List.eq_nil_of_length_eq_zero (by omega)
    subst this
    rfl
  | succ fuel ih =>
    cases s with
    | nil => rfl
    | cons u rest =>
      rw [matchesFrom_cons, List.flatten_cons, ih]
      · exact List.take_append_drop 1000 (u :: rest)
      · simp only [List.length_drop, List.length_cons] at h ⊢
        omega

theorem matchesFrom_length (fuel : Nat) (s : Str) (h : s.length ≤ fuel) :
    (matchesFrom spaceOrNonSpace 1000 fuel s).length = (s.length + 999) / 1000 := by
  induction fuel generalizing s with
  | zero =>
    have : s = [] := List.eq_nil_of_length_eq_zero (by omega)
    subst this
    rfl
  | succ fuel ih =>
    cases s with
    | nil => rfl
    | cons u rest =>
      rw [matchesFrom_cons, List.length_cons, ih]
      · simp only [List.length_drop, List.length_cons]
        omega
      · simp only [List.length_drop, List.length_cons] at h ⊢
        omega

theorem matchesFrom_getElem (fuel : Nat) (s : Str) (h : s.length ≤ fuel) (i : Nat) (c : Str)
    (hc : (matchesFrom spaceOrNonSpace 1000 fuel s)[i]? = some c) :
    (i + 1 < (matchesFrom spaceOrNonSpace 1000 fuel s).length → c.length = 1000)
      ∧ 1 ≤ c.length ∧ c.length ≤ 1000 := by
  induction fuel generalizing s i with
  | zero =>
    have : s = [] := List.eq_nil_of_length_eq_zero (by omega)
    subst this
    simp [matchesFrom] at hc
  | succ fuel ih =>
    cases s with
    | nil => simp [matchesFrom] at hc
    | cons u rest =>
      have hrest : ((u :: rest).drop 1000).length ≤ fuel := by
        simp only [List.length_drop, List.length_cons] at h ⊢
        omega
      rw [matchesFrom_cons] at hc ⊢
      cases i with
      | zero =>
        simp only [List.getElem?_cons_zero, Option.some.injEq] at hc
        subst hc
        rw [List.length_cons, matchesFrom_length fuel _ hrest]
        simp only [List.length_take, List.length_drop, List.length_cons]
        omega
      | succ j =>
        simp only [List.getElem?_cons_succ] at hc
        have := ih _ hrest j hc
        simp only [List.length_cons]
        omega

theorem orEmptyArray_stringMatch (text : Str) :
    chunksOf text = matchesFrom spaceOrNonSpace 1000 text.length text := by
  unfold chunksOf stringMatch
  cases h : matchesFrom spaceOrNonSpace 1000 text.length text <;> simp [orEmptyArray]

theorem chunksOf_length (text : Str) :
    (chunksOf text).length = (text.length + 999) / 1000 := by
  rw [orEmptyArray_stringMatch]
  exact matchesFrom_length _ _ (Nat.le_refl _)

/-- C2: for every string `text`, the empty string included, the chunks of line
74 concatenated in order are `text` again: the split drops, duplicates and
reorders nothing. -/
theorem chunks_concat_eq_text (text : Str) : (chunksOf text).flatten = text := by
  rw [orEmptyArray_stringMatch]
  exact matchesFrom_flatten _ _ (Nat.le_refl _)

/-- C3: for every string `text` of `N` code units the chunks of line 74 are
`ceil (N / 1000)` many; every chunk but the last has exactly 1000 units, the
last has between 1 and 1000, and for `N = 0` there is no chunk. -/
theorem chunks_count_and_lengths (text : Str) :
    (chunksOf text).length = (text.length + 999) / 1000
      ∧ (∀ (i : Nat) (chunk : Str), (chunksOf text)[i]? = some chunk →
          (i + 1 < (chunksOf text).length → chunk.length = 1000)
            ∧ (i + 1 = (chunksOf text).length → 1 ≤ chunk.length ∧ chunk.length ≤ 1000))
      ∧ (text.length = 0 → chunksOf text = []) := by
  rw [orEmptyArray_stringMatch]
  refine ⟨matchesFrom_length _ _ (Nat.le_refl _), ?_, ?_⟩
  · intro i chunk hc
    have := matchesFrom_getElem _ _ (Nat.le_refl _) i chunk hc
    exact ⟨this.1, fun _ => this.2⟩
  · intro h0
    have : text = [] := List.eq_nil_of_length_eq_zero h0
    subst this
    rfl

/-! ## Running the handler -/

theorem tryBody_eq {σ P : Type} (c : Collaborators σ P) (context : Context) (prompt : P) :
    tryBody c context prompt
      = (textBlock c context prompt >>= fun p1 =>
          imageBlock c context p1 >>= fun p2 => completionBlock c context p2) := rfl

theorem exec_run {σ P : Type} (c : Collaborators σ P) (context : Context) (st : Run σ P) :
    exec c context st
      = if check context then
          match c.getPrompt context.userId st.world with
          | (Except.error e, w1) =>
            (Except.error e,
              ⟨w1, st.trace ++ [Effect.getPrompt context.userId (Except.error e)]⟩)
          | (Except.ok prompt, w1) =>
            match tryBody c context prompt
                ⟨w1, st.trace ++ [Effect.getPrompt context.userId (Except.ok prompt)]⟩ with
            | (Except.ok _, st2) => (Except.ok (ExecResult.handled context), st2)
            | (Except.error err, st2) =>
              (Except.ok (ExecResult.handled context),
                ⟨c.pushError err st2.world,
                  st2.trace ++ [Effect.consoleError err, Effect.pushError err]⟩)
        else (Except.ok ExecResult.notHandled, st) := by
  by_cases hg : check context
  · rcases hgp : c.getPrompt context.userId st.world with ⟨r, w1⟩
    cases r with
    | error e =>
      simp [exec, Bind.bind, Pure.pure, Eff.andThen, Eff.ret, Eff.call, hg, hgp]
    | ok prompt =>
      rcases hb : tryBody c context prompt
        ⟨w1, st.trace ++ [Effect.getPrompt context.userId (Except.ok prompt)]⟩ with ⟨r2, st2⟩
      cases r2 with
      | ok u =>
        simp [exec, Bind.bind, Pure.pure, Eff.andThen, Eff.ret, Eff.call, Eff.tryCatch,
          hg, hgp, hb]
      | error err =>
        simp [exec, Bind.bind, Pure.pure, Eff.andThen, Eff.ret, Eff.call, Eff.tryCatch,
          Eff.notify, hg, hgp, hb]
  · simp [exec, Bind.bind, Pure.pure, Eff.andThen, Eff.ret, hg]

theorem call_run {σ P α : Type} (f : σ → Except Err α × σ) (ev : Except Err α → Effect P)
    (st : Run σ P) :
    Eff.call f ev st = ((f st.world).1, ⟨(f st.world).2, st.trace ++ [ev (f st.world).1]⟩) :=
  rfl

theorem bind_run {σ P α β : Type} (m : Eff σ P α) (f : α → Eff σ P β) (st : Run σ P) :
    (m >>= f) st
      = match m st with
        | (Except.ok a, st1) => f a st1
        | (Except.error e, st1) => (Except.error e, st1) :=
  rfl

theorem pure_run {σ P α : Type} (a : α) (st : Run σ P) :
    (pure a : Eff σ P α) st = (Except.ok a, st) :=
  rfl

/-- The loop of lines 82-84 pushes the chunks in order, each with no action,
and stops at the first push that fails. -/
theorem pushRest_run {σ P : Type} (c : Collaborators σ P) (l : List Str) (st : Run σ P) :
    ((pushRest c l st).1 = Except.ok ()
        ∧ (pushRest c l st).2.trace = st.trace ++ l.map (fun ch => pushed (ch, [])))
      ∨ (∃ j ch e, l[j]? = some ch ∧ (pushRest c l st).1 = Except.error e
          ∧ (pushRest c l st).2.trace
            = st.trace ++ (l.take j).map (fun ch => pushed (ch, []))
                ++ [Effect.pushText ch [] (Except.error e)]) := by
  induction l generalizing st with
  | nil =>
    left
    exact ⟨rfl, by simp [pushRest, pure_run]⟩
  | cons chunk rest ih =>
    rcases hp : c.pushText chunk [] st.world with ⟨r, w1⟩
    cases r with
    | error e =>
      right
      refine ⟨0, chunk, e, by simp, ?_, ?_⟩ <;>
        simp [pushRest, bind_run, call_run, hp]
    | ok u =>
      have hstep : pushRest c (chunk :: rest) st
          = pushRest c rest ⟨w1, st.trace ++ [Effect.pushText chunk [] (Except.ok ())]⟩ := by
        simp [pushRest, bind_run, call_run, hp]
      rw [hstep]
      rcases ih ⟨w1, st.trace ++ [Effect.pushText chunk [] (Except.ok ())]⟩ with
        ⟨h1, h2⟩ | ⟨j, ch, e, hj, h1, h2⟩
      · left
        exact ⟨h1, by simp [h2, pushed]⟩
      · right
        exact ⟨j + 1, ch, e, by simpa using hj, h1, by simp [h2, pushed]⟩

/-- Lines 76-84 on an array of non-empty chunks: the pushes of `deliveries`,
in order, up to and including the first that fails. -/
theorem deliver_run {σ P : Type} (c : Collaborators σ P) (chunks : List Str)
    (actions : List Command) (st : Run σ P) (hne : ∀ ch ∈ chunks, ch ≠ []) :
    ((deliver c chunks actions st).1 = Except.ok ()
        ∧ (deliver c chunks actions st).2.trace
          = st.trace ++ (deliveries chunks actions).map pushed)
      ∨ (∃ j x e, (deliveries chunks actions)[j]? = some x
          ∧ (deliver c chunks actions st).1 = Except.error e
          ∧ (deliver c chunks actions st).2.trace
            = st.trace ++ ((deliveries chunks actions).take j).map pushed
                ++ [Effect.pushText x.1 x.2 (Except.error e)]) := by
  cases chunks with
  | nil =>
    left
    exact ⟨rfl, by simp [deliver, deliveries, bind_run, pure_run, pushRest]⟩
  | cons first rest =>
    have hfirst : first ≠ [] := hne first (List.mem_cons_self _ _)
    have htruthy : truthy (some first) = true := by
      cases first with
      | nil => exact absurd rfl hfirst
      | cons u s => rfl
    rcases hp : c.pushText first actions st.world with ⟨r, w1⟩
    cases r with
    | error e =>
      right
      refine ⟨0, (first, actions), e, by simp [deliveries], ?_, ?_⟩ <;>
        simp [deliver, deliveries, htruthy, bind_run, call_run, hp]
    | ok u =>
      have hstep : deliver c (first :: rest) actions st
          = pushRest c rest ⟨w1, st.trace ++ [Effect.pushText first actions (Except.ok ())]⟩ := by
        simp [deliver, htruthy, bind_run, call_run, hp]
      rw [hstep]
      rcases pushRest_run c rest
          ⟨w1, st.trace ++ [Effect.pushText first actions (Except.ok ())]⟩ with
        ⟨h1, h2⟩ | ⟨j, ch, e, hj, h1, h2⟩
      · left
        exact ⟨h1, by simp [h2, deliveries, pushed, Function.comp_def]⟩
      · right
        refine ⟨j + 1, (ch, []), e, ?_, h1, ?_⟩
        · simp [deliveries, List.getElem?_map, hj]
        · simp [h2, deliveries, pushed, List.map_take, Function.comp_def]

theorem chunksOf_ne_nil (t : Str) : ∀ ch ∈ chunksOf t, ch ≠ [] := by
  intro ch hch
  rcases List.getElem?_of_mem hch with ⟨i, hi⟩
  rw [orEmptyArray_stringMatch] at hi
  have := (matchesFrom_getElem _ _ (Nat.le_refl _) i ch hi).2.1
  intro h
  rw [h] at this
  simp at this

/-- Lines 59-84 run as `CompletionRun` says, from any state. -/
theorem completionBlock_run {σ P : Type} (c : Collaborators σ P) (context : Context)
    (prompt : P) (st : Run σ P) :
    ∃ post, (completionBlock c context prompt st).2.trace = st.trace ++ post
      ∧ CompletionRun c context prompt (completionBlock c context prompt st).1 post := by
  rcases hg : c.generateCompletion prompt st.world with ⟨r1, w1⟩
  cases r1 with
  | error e =>
    refine ⟨_, ?_, Or.inl ⟨e, ?_, rfl⟩⟩ <;>
      simp [completionBlock, bind_run, call_run, hg]
  | ok completion =>
    obtain ⟨text, stop⟩ := completion
    rcases hp : c.patch prompt text w1 with ⟨r2, w2⟩
    cases r2 with
    | error e =>
      refine ⟨_, ?_, Or.inr (Or.inl ⟨⟨text, stop⟩, e, ?_, ⟨w1, by rw [hp]⟩, rfl⟩)⟩ <;>
        simp [completionBlock, bind_run, call_run, hg, hp]
    | ok patched =>
      rcases hs : c.setPrompt context.userId patched w2 with ⟨r3, w3⟩
      cases r3 with
      | error e =>
        refine ⟨_, ?_, Or.inr (Or.inr (Or.inl ⟨⟨text, stop⟩, patched, e, ?_, ⟨w1, by rw [hp]⟩, rfl⟩))⟩ <;>
          simp [completionBlock, bind_run, call_run, hg, hp, hs]
      | ok u3 =>
        rcases hu : c.updateHistory context.id c.BOT_NAME text w3 with ⟨r4, w4⟩
        cases r4 with
        | error e =>
          refine ⟨_, ?_,
            Or.inr (Or.inr (Or.inr (Or.inl ⟨⟨text, stop⟩, patched, e, ?_, ⟨w1, by rw [hp]⟩, rfl⟩)))⟩ <;>
            simp [completionBlock, bind_run, call_run, hg, hp, hs, hu]
        | ok u4 =>
          cases text with
          | undefined =>
            refine ⟨_, ?_, Or.inr (Or.inr (Or.inr (Or.inr (Or.inl
              ⟨⟨JSText.undefined, stop⟩, patched, by simp, ⟨w1, by rw [hp]⟩, ?_, rfl⟩))))⟩ <;>
              simp [completionBlock, committed, bind_run, call_run, hg, hp, hs, hu,
                textMatch, Eff.raise]
          | null =>
            refine ⟨_, ?_, Or.inr (Or.inr (Or.inr (Or.inr (Or.inl
              ⟨⟨JSText.null, stop⟩, patched, by simp, ⟨w1, by rw [hp]⟩, ?_, rfl⟩))))⟩ <;>
              simp [completionBlock, committed, bind_run, call_run, hg, hp, hs, hu,
                textMatch, Eff.raise]
          | str t =>
            have hstep : completionBlock c context prompt st
                = deliver c (chunksOf t) (actionsFor stop)
                    ⟨w4, st.trace ++ committed c context prompt ⟨JSText.str t, stop⟩ patched⟩ := by
              simp [completionBlock, committed, bind_run, call_run, pure_run, hg, hp, hs, hu,
                textMatch, chunksOf]
            rw [hstep]
            rcases deliver_run c (chunksOf t) (actionsFor stop)
                ⟨w4, st.trace ++ committed c context prompt ⟨JSText.str t, stop⟩ patched⟩
                (chunksOf_ne_nil t) with ⟨h1, h2⟩ | ⟨j, x, e, hj, h1, h2⟩
            · refine ⟨_, ?_, Or.inr (Or.inr (Or.inr (Or.inr (Or.inr (Or.inl
                ⟨⟨JSText.str t, stop⟩, patched, t, rfl, ⟨w1, by rw [hp]⟩, h1, rfl⟩)))))⟩
              simp [h2]
            · refine ⟨_, ?_, Or.inr (Or.inr (Or.inr (Or.inr (Or.inr (Or.inr
                ⟨⟨JSText.str t, stop⟩, patched, t, j, x, e, rfl, ⟨w1, by rw [hp]⟩, hj, h1, rfl⟩)))))⟩
              simp [h2]

theorem textBlock_run {σ P : Type} (c : Collaborators σ P) (context : Context)
    (prompt : P) (st : Run σ P) :
    ∃ pre, (textBlock c context prompt st).2.trace = st.trace ++ pre
      ∧ (∀ ev ∈ pre, ev.kind = Kind.write ∨ ev.kind = Kind.writeImage)
      ∧ ((∃ p1, (textBlock c context prompt st).1 = Except.ok p1 ∧ ∀ ev ∈ pre, ev.threw = none)
        ∨ (∃ e, (textBlock c context prompt st).1 = Except.error e ∧ FailsLast e pre)) := by
  cases ht : context.event.isText with
  | false =>
    exact ⟨[], by simp [textBlock, ht, pure_run], by simp,
      Or.inl ⟨prompt, by simp [textBlock, ht, pure_run], by simp⟩⟩
  | true =>
    rcases h1 : c.write prompt Role.ROLE_HUMAN (some (c.tone ++ context.trimmedText)) st.world
      with ⟨r1, w1⟩
    cases r1 with
    | error e =>
      refine ⟨[Effect.write prompt Role.ROLE_HUMAN (some (c.tone ++ context.trimmedText))
        (Except.error e)], ?_, by simp [Effect.kind], Or.inr ⟨e, ?_, ?_⟩⟩
      · simp [textBlock, ht, bind_run, call_run, h1]
      · simp [textBlock, ht, bind_run, call_run, h1]
      · exact ⟨[], _, rfl, by simp, by simp [Effect.threw, Effect.errorOf]⟩
    | ok p =>
      rcases h2 : c.write p Role.ROLE_AI none w1 with ⟨r2, w2⟩
      refine ⟨[Effect.write prompt Role.ROLE_HUMAN (some (c.tone ++ context.trimmedText))
        (Except.ok p), Effect.write p Role.ROLE_AI none r2], ?_, by simp [Effect.kind], ?_⟩
      · simp [textBlock, ht, bind_run, call_run, h1, h2]
      · cases r2 with
        | error e =>
          refine Or.inr ⟨e, ?_, ?_⟩
          · simp [textBlock, ht, bind_run, call_run, h1, h2]
          · exact ⟨[_], _, rfl, by simp [Effect.threw, Effect.errorOf],
              by simp [Effect.threw, Effect.errorOf]⟩
        | ok p1 =>
          refine Or.inl ⟨p1, ?_, ?_⟩
          · simp [textBlock, ht, bind_run, call_run, h1, h2]
          · simp [Effect.threw, Effect.errorOf]

theorem imageBlock_run {σ P : Type} (c : Collaborators σ P) (context : Context)
    (prompt : P) (st : Run σ P) :
    ∃ pre, (imageBlock c context prompt st).2.trace = st.trace ++ pre
      ∧ (∀ ev ∈ pre, ev.kind = Kind.write ∨ ev.kind = Kind.writeImage)
      ∧ ((∃ p1, (imageBlock c context prompt st).1 = Except.ok p1 ∧ ∀ ev ∈ pre, ev.threw = none)
        ∨ (∃ e, (imageBlock c context prompt st).1 = Except.error e ∧ FailsLast e pre)) := by
  cases ht : context.event.isImage with
  | false =>
    exact ⟨[], by simp [imageBlock, ht, pure_run], by simp,
      Or.inl ⟨prompt, by simp [imageBlock, ht, pure_run], by simp⟩⟩
  | true =>
    rcases h1 : c.writeImage prompt Role.ROLE_HUMAN context.trimmedText st.world
      with ⟨r1, w1⟩
    cases r1 with
    | error e =>
      refine ⟨[Effect.writeImage prompt Role.ROLE_HUMAN context.trimmedText
        (Except.error e)], ?_, by simp [Effect.kind], Or.inr ⟨e, ?_, ?_⟩⟩
      · simp [imageBlock, ht, bind_run, call_run, h1]
      · simp [imageBlock, ht, bind_run, call_run, h1]
      · exact ⟨[], _, rfl, by simp, by simp [Effect.threw, Effect.errorOf]⟩
    | ok p =>
      rcases h2 : c.write p Role.ROLE_AI none w1 with ⟨r2, w2⟩
      refine ⟨[Effect.writeImage prompt Role.ROLE_HUMAN context.trimmedText
        (Except.ok p), Effect.write p Role.ROLE_AI none r2], ?_, by simp [Effect.kind], ?_⟩
      · simp [imageBlock, ht, bind_run, call_run, h1, h2]
      · cases r2 with
        | error e =>
          refine Or.inr ⟨e, ?_, ?_⟩
          · simp [imageBlock, ht, bind_run, call_run, h1, h2]
          · exact ⟨[_], _, rfl, by simp [Effect.threw, Effect.errorOf],
              by simp [Effect.threw, Effect.errorOf]⟩
        | ok p1 =>
          refine Or.inl ⟨p1, ?_, ?_⟩
          · simp [imageBlock, ht, bind_run, call_run, h1, h2]
          · simp [Effect.threw, Effect.errorOf]

/-- The `try` body runs as `TryRun` says, from any state. -/
theorem tryBody_run {σ P : Type} (c : Collaborators σ P) (context : Context)
    (prompt : P) (st : Run σ P) :
    ∃ tr, (tryBody c context prompt st).2.trace = st.trace ++ tr
      ∧ TryRun c context (tryBody c context prompt st).1 tr := by
  rw [tryBody_eq, bind_run]
  obtain ⟨pre1, ht1, hk1, hr1⟩ := textBlock_run c context prompt st
  rcases hb1 : textBlock c context prompt st with ⟨r1, st1⟩
  rw [hb1] at ht1 hr1
  simp only at ht1 hr1
  rcases hr1 with ⟨p1, hp1, hok1⟩ | ⟨e, he, hev⟩
  · subst hp1
    simp only [bind_run]
    obtain ⟨pre2, ht2, hk2, hr2⟩ := imageBlock_run c context p1 st1
    rcases hb2 : imageBlock c context p1 st1 with ⟨r2, st2⟩
    rw [hb2] at ht2 hr2
    simp only at ht2 hr2
    rcases hr2 with ⟨p2, hp2, hok2⟩ | ⟨e, he, hev⟩
    · subst hp2
      simp only
      obtain ⟨post, ht3, hr3⟩ := completionBlock_run c context p2 st2
      refine ⟨pre1 ++ pre2 ++ post, by simp [ht3, ht2, ht1], pre1 ++ pre2, ?_, Or.inr
        ⟨p2, post, ?_, rfl, hr3⟩⟩
      · intro ev hev
        rcases List.mem_append.1 hev with h | h
        · exact hk1 ev h
        · exact hk2 ev h
      · intro ev hev
        rcases List.mem_append.1 hev with h | h
        · exact hok1 ev h
        · exact hok2 ev h
    · subst he
      refine ⟨pre1 ++ pre2, by simp [ht2, ht1], pre1 ++ pre2, ?_, Or.inl ⟨e, rfl, rfl, ?_⟩⟩
      · intro ev hev
        rcases List.mem_append.1 hev with h | h
        · exact hk1 ev h
        · exact hk2 ev h
      · obtain ⟨good, bad, hsplit, hgood, hbad⟩ := hev
        refine ⟨pre1 ++ good, bad, by simp [hsplit], ?_, hbad⟩
        intro ev hmem
        rcases List.mem_append.1 hmem with h | h
        · exact hok1 ev h
        · exact hgood ev h
  · subst he
    exact ⟨pre1, ht1, pre1, hk1, Or.inl ⟨e, rfl, rfl, hev⟩⟩

/-- A gated run of `exec`: either `getPrompt` throws, which is raised to the
caller, or the `try` body runs on the loaded prompt, the `catch` block handles
its error if there is one, and the context is returned. -/
theorem runExec_gated {σ P : Type} (c : Collaborators σ P) (context : Context) (w : σ)
    (hgate : check context = true) :
    (∃ e, (runExec c context w).1 = Except.error e
        ∧ (runExec c context w).2.trace = [Effect.getPrompt context.userId (Except.error e)])
      ∨ (∃ prompt r tr, TryRun c context r tr
        ∧ (runExec c context w).1 = Except.ok (ExecResult.handled context)
        ∧ (runExec c context w).2.trace
          = Effect.getPrompt context.userId (Except.ok prompt) :: (tr ++ caught r)) := by
  unfold runExec
  rw [exec_run, if_pos hgate]
  rcases hgp : c.getPrompt context.userId w with ⟨r0, w1⟩
  cases r0 with
  | error e => exact Or.inl ⟨e, rfl, rfl⟩
  | ok prompt =>
    right
    simp only [List.nil_append]
    obtain ⟨tr, ht, hr⟩ := tryBody_run c context prompt
      ⟨w1, [Effect.getPrompt context.userId (Except.ok prompt)]⟩
    rcases hb : tryBody c context prompt
      ⟨w1, [Effect.getPrompt context.userId (Except.ok prompt)]⟩ with ⟨r, st2⟩
    rw [hb] at ht hr
    simp only at ht hr
    refine ⟨prompt, r, tr, hr, ?_, ?_⟩
    · cases r <;> rfl
    · cases r <;> simp [ht, caught]

/-! ## Counting and filtering the calls of a trace -/

theorem callCount_nil {P : Type} (k : Kind) : callCount k ([] : List (Effect P)) = 0 := rfl

theorem callCount_cons {P : Type} (k : Kind) (ev : Effect P) (l : List (Effect P)) :
    callCount k (ev :: l) = callCount k l + (if ev.kind = k then 1 else 0) := by
  simp [callCount, List.count_cons]

theorem callCount_append {P : Type} (k : Kind) (l1 l2 : List (Effect P)) :
    callCount k (l1 ++ l2) = callCount k l1 + callCount k l2 := by
  simp [callCount, List.count_append]

theorem callCount_eq_zero {P : Type} (k : Kind) (l : List (Effect P))
    (h : ∀ ev ∈ l, ev.kind ≠ k) : callCount k l = 0 := by
  induction l with
  | nil => rfl
  | cons ev l ih =>
    rw [callCount_cons, ih (fun x hx => h x (List.mem_cons_of_mem _ hx)),
      if_neg (h ev (List.mem_cons_self _ _))]

theorem callCount_map_pushed {P : Type} (k : Kind) (l : List (Str × List Command)) :
    callCount k (l.map (pushed : _ → Effect P)) = if k = Kind.pushText then l.length else 0 := by
  induction l with
  | nil => simp [callCount]
  | cons x l ih =>
    rw [List.map_cons, callCount_cons, ih]
    by_cases hk : k = Kind.pushText
    · subst hk
      simp [pushed, Effect.kind]
    · have : ¬ Kind.pushText = k := fun h => hk h.symm
      simp [pushed, Effect.kind, hk, this]

theorem callCount_take_map_pushed {P : Type} (k : Kind) (j : Nat)
    (l : List (Str × List Command)) :
    callCount k (List.take j (l.map (pushed : _ → Effect P)))
      = if k = Kind.pushText then (l.take j).length else 0 := by
  rw [← List.map_take, callCount_map_pushed]

theorem pushTexts_append {P : Type} (l1 l2 : List (Effect P)) :
    pushTexts (l1 ++ l2) = pushTexts l1 ++ pushTexts l2 := by
  simp [pushTexts, List.filterMap_append]

theorem pushTexts_eq_nil {P : Type} (l : List (Effect P))
    (h : ∀ ev ∈ l, ev.kind ≠ Kind.pushText) : pushTexts l = [] := by
  induction l with
  | nil => rfl
  | cons ev l ih =>
    have hl := ih (fun x hx => h x (List.mem_cons_of_mem _ hx))
    have hev := h ev (List.mem_cons_self _ _)
    unfold pushTexts at hl ⊢
    cases ev <;> simp_all [Effect.pushTextCall, Effect.kind]

theorem pushTexts_map_pushed {P : Type} (l : List (Str × List Command)) :
    pushTexts (l.map (pushed : _ → Effect P)) = l.map (fun x => (x.1, x.2, none)) := by
  induction l with
  | nil => rfl
  | cons x l ih =>
    unfold pushTexts at ih ⊢
    simp [pushed, Effect.pushTextCall, Effect.errorOf] at ih ⊢
    exact ih

theorem writes_kind_ne {P : Type} (pre : List (Effect P)) (k : Kind)
    (hkind : ∀ ev ∈ pre, ev.kind = Kind.write ∨ ev.kind = Kind.writeImage)
    (hw : k ≠ Kind.write) (hi : k ≠ Kind.writeImage) : ∀ ev ∈ pre, ev.kind ≠ k := by
  intro ev hev h
  rcases hkind ev hev with h1 | h1
  · exact hw (h ▸ h1)
  · exact hi (h ▸ h1)

/-! ## The gate -/

/-- C1: `exec` returns the not-handled value `false` exactly when
`hasCommand(COMMAND_BOT_TALK)`, `hasBotName` and `source.bot.isActivated` are all
false, and whenever it returns `false` no collaborator has been called: the
trace is empty and the collaborator state, the stores included, is unchanged. -/
theorem exec_not_handled_iff_gate_closed {σ P : Type} (c : Collaborators σ P)
    (context : Context) (w : σ) :
    ((runExec c context w).1 = Except.ok ExecResult.notHandled
        ↔ (context.hasCommand Command.COMMAND_BOT_TALK = false
            ∧ context.hasBotName = false ∧ context.source.bot.isActivated = false))
      ∧ ((runExec c context w).1 = Except.ok ExecResult.notHandled
        → (runExec c context w).2.trace = [] ∧ (runExec c context w).2.world = w) := by
  have hclosed : check context = false
      ↔ (context.hasCommand Command.COMMAND_BOT_TALK = false
          ∧ context.hasBotName = false ∧ context.source.bot.isActivated = false) := by
    simp [check, Bool.or_eq_false_iff, and_assoc]
  cases hg : check context with
  | false =>
    have hrun : runExec c context w = (Except.ok ExecResult.notHandled, ⟨w, []⟩) := by
      unfold runExec
      rw [exec_run]
      simp [hg]
    rw [hrun]
    exact ⟨⟨fun _ => hclosed.1 hg, fun _ => rfl⟩, fun _ => ⟨rfl, rfl⟩⟩
  | true =>
    have hne : (runExec c context w).1 ≠ Except.ok ExecResult.notHandled := by
      rcases runExec_gated c context w hg with ⟨e, hr, _⟩ | ⟨prompt, r, tr, _, hr, _⟩
      · rw [hr]
        simp
      · rw [hr]
        simp
    refine ⟨⟨fun h => absurd h hne, fun h => ?_⟩, fun h => absurd h hne⟩
    have := hclosed.2 h
    rw [hg] at this
    exact absurd this (by simp)

/-! ## A rejected completion -/

/-- C7: in a gated run in which `generateCompletion` rejects with error `e`,
`exec` calls neither `prompt.patch` nor `setPrompt` nor `updateHistory` nor
`pushText`, calls `pushError` exactly once, with `e`, and returns the context. -/
theorem completion_rejected_no_commit {σ P : Type} (c : Collaborators σ P)
    (context : Context) (w : σ) (prompt : P) (e : Err)
    (hgate : check context = true)
    (hgen : Effect.generateCompletion prompt (Except.error e) ∈ (runExec c context w).2.trace) :
    callCount Kind.patch (runExec c context w).2.trace = 0
      ∧ callCount Kind.setPrompt (runExec c context w).2.trace = 0
      ∧ callCount Kind.updateHistory (runExec c context w).2.trace = 0
      ∧ callCount Kind.pushText (runExec c context w).2.trace = 0
      ∧ callCount Kind.pushError (runExec c context w).2.trace = 1
      ∧ Effect.pushError e ∈ (runExec c context w).2.trace
      ∧ (runExec c context w).1 = Except.ok (ExecResult.handled context) := by
  rcases runExec_gated c context w hgate with
    ⟨e0, hr, htr⟩ | ⟨p0, r, tr, ⟨pre, hkind, hcase⟩, hr, htr⟩
  · rw [htr] at hgen
    simp at hgen
  · rw [htr] at hgen ⊢
    have hpre : Effect.generateCompletion prompt (Except.error e) ∉ pre := by
      intro h
      have := hkind _ h
      simp [Effect.kind] at this
    have htake : ∀ (j : Nat) (L : List (Str × List Command)),
        Effect.generateCompletion prompt (Except.error e) ∉ List.take j (List.map pushed L) := by
      intro j L h
      have := List.mem_of_mem_take h
      simp [pushed] at this
    have k1 := callCount_eq_zero Kind.patch pre (writes_kind_ne pre _ hkind (by simp) (by simp))
    have k2 := callCount_eq_zero Kind.setPrompt pre
      (writes_kind_ne pre _ hkind (by simp) (by simp))
    have k3 := callCount_eq_zero Kind.updateHistory pre
      (writes_kind_ne pre _ hkind (by simp) (by simp))
    have k4 := callCount_eq_zero Kind.pushText pre
      (writes_kind_ne pre _ hkind (by simp) (by simp))
    have k5 := callCount_eq_zero Kind.pushError pre
      (writes_kind_ne pre _ hkind (by simp) (by simp))
    refine ⟨?_, ?_, ?_, ?_, ?_, ?_, hr⟩ <;>
    · rcases hcase with ⟨e1, hre, htr1, _⟩ | ⟨p2, post, _, htr1, hcomp⟩
      · subst hre htr1
        simp [caught, hpre] at hgen
      · subst htr1
        rcases hcomp with ⟨e1, hre, hpost⟩ | ⟨comp, e1, hre, _, hpost⟩
          | ⟨comp, p3, e1, hre, _, hpost⟩ | ⟨comp, p3, e1, hre, _, hpost⟩
          | ⟨comp, p3, _, _, hre, hpost⟩ | ⟨comp, p3, t, _, _, hre, hpost⟩
          | ⟨comp, p3, t, j, x, e1, _, _, _, hre, hpost⟩
        · subst hre hpost
          simp [caught, hpre] at hgen
          obtain ⟨_, rfl⟩ := hgen
          simp [callCount_cons, callCount_append, callCount_nil, caught, Effect.kind, k1, k2,
            k3, k4, k5]
        all_goals
          subst hre hpost
          simp [caught, committed, pushed, hpre, htake] at hgen

/-! ## A turn in which every collaborator succeeds -/

theorem not_mem_writes {P : Type} (pre : List (Effect P)) (ev : Effect P)
    (hkind : ∀ x ∈ pre, x.kind = Kind.write ∨ x.kind = Kind.writeImage)
    (hw : ev.kind ≠ Kind.write) (hi : ev.kind ≠ Kind.writeImage) : ev ∉ pre := by
  intro h
  rcases hkind ev h with h1 | h1
  · exact hw h1
  · exact hi h1

theorem not_mem_take_pushed {P : Type} (ev : Effect P) (hk : ev.kind ≠ Kind.pushText)
    (j : Nat) (L : List (Str × List Command)) : ev ∉ List.take j (List.map pushed L) := by
  intro h
  have hm := List.mem_of_mem_take h
  rcases List.mem_map.1 hm with ⟨x, _, hx⟩
  rw [← hx] at hk
  exact hk rfl

theorem not_mem_pushed {P : Type} (ev : Effect P) (hk : ev.kind ≠ Kind.pushText)
    (L : List (Str × List Command)) : ev ∉ List.map pushed L := by
  intro hm
  rcases List.mem_map.1 hm with ⟨x, _, hx⟩
  rw [← hx] at hk
  exact hk rfl

/-- A gated run in which no call throws and the completion resolves to a string
`t`: the writes, the four calls of lines 60-65, and one push per chunk. -/
theorem successful_run {σ P : Type} (c : Collaborators σ P) (context : Context) (w : σ)
    (prompt : P) (t : Str) (stop : Bool)
    (hgate : check context = true)
    (hok : ∀ ev ∈ (runExec c context w).2.trace, ev.threw = none)
    (hgen : Effect.generateCompletion prompt (Except.ok ⟨JSText.str t, stop⟩)
      ∈ (runExec c context w).2.trace) :
    ∃ p0 pre patched,
      (∀ ev ∈ pre, ev.kind = Kind.write ∨ ev.kind = Kind.writeImage)
        ∧ (runExec c context w).1 = Except.ok (ExecResult.handled context)
        ∧ (runExec c context w).2.trace
          = Effect.getPrompt context.userId (Except.ok p0)
            :: (pre ++ committed c context prompt ⟨JSText.str t, stop⟩ patched
              ++ (deliveries (chunksOf t) (actionsFor stop)).map pushed) := by
  rcases runExec_gated c context w hgate with
    ⟨e0, hr, htr⟩ | ⟨p0, r, tr, ⟨pre, hkind, hcase⟩, hr, htr⟩
  · rw [htr] at hgen
    simp at hgen
  · rw [htr] at hgen hok
    have hpre := not_mem_writes pre
      (Effect.generateCompletion prompt (Except.ok ⟨JSText.str t, stop⟩)) hkind
      (by simp [Effect.kind]) (by simp [Effect.kind])
    have htake := not_mem_take_pushed (P := P)
      (Effect.generateCompletion prompt (Except.ok ⟨JSText.str t, stop⟩))
      (by simp [Effect.kind])
    rcases hcase with ⟨e1, hre, htr1, good, bad, hsplit, _, hthrew⟩ | ⟨p2, post, _, htr1, hcomp⟩
    · subst htr1
      have := hok bad (by simp [hsplit])
      rw [this] at hthrew
      simp at hthrew
    · subst htr1
      rcases hcomp with ⟨e1, hre, hpost⟩ | ⟨comp, e1, hre, _, hpost⟩
        | ⟨comp, p3, e1, hre, _, hpost⟩ | ⟨comp, p3, e1, hre, _, hpost⟩
        | ⟨comp, p3, hnot, _, hre, hpost⟩ | ⟨comp, p3, t1, htext, _, hre, hpost⟩
        | ⟨comp, p3, t1, j, x, e1, _, _, _, hre, hpost⟩
      · subst hre hpost
        have := hok (Effect.generateCompletion p2 (Except.error e1)) (by simp)
        simp [Effect.threw, Effect.errorOf] at this
      · subst hre hpost
        have := hok (Effect.patch p2 comp.text (Except.error e1)) (by simp)
        simp [Effect.threw, Effect.errorOf] at this
      · subst hre hpost
        have := hok (Effect.setPrompt context.userId p3 (Except.error e1)) (by simp)
        simp [Effect.threw, Effect.errorOf] at this
      · subst hre hpost
        have := hok (Effect.updateHistory context.id c.BOT_NAME comp.text (Except.error e1))
          (by simp)
        simp [Effect.threw, Effect.errorOf] at this
      · subst hre hpost
        simp [caught, committed, hpre] at hgen
        obtain ⟨_, rfl⟩ := hgen
        exact absurd rfl (hnot t)
      · subst hre hpost
        simp [caught, committed, pushed, hpre] at hgen
        obtain ⟨rfl, rfl⟩ := hgen
        simp only [JSText.str.injEq] at htext
        subst htext
        refine ⟨p0, pre, p3, hkind, hr, ?_⟩
        rw [htr]
        simp [caught]
      · subst hre hpost
        have := hok (Effect.pushText x.1 x.2 (Except.error e1)) (by simp)
        simp [Effect.threw, Effect.errorOf] at this

theorem threw_pushed {P : Type} (x : Str × List Command) :
    (pushed x : Effect P).threw = none := rfl

theorem kind_pushed {P : Type} (x : Str × List Command) :
    (pushed x : Effect P).kind = Kind.pushText := rfl

theorem callCount_writes {P : Type} (pre : List (Effect P)) (k : Kind)
    (hkind : ∀ ev ∈ pre, ev.kind = Kind.write ∨ ev.kind = Kind.writeImage)
    (hw : k ≠ Kind.write) (hi : k ≠ Kind.writeImage) : callCount k pre = 0 :=
  callCount_eq_zero k pre (writes_kind_ne pre k hkind hw hi)

theorem deliveries_map_fst (chunks : List Str) (actions : List Command) :
    (deliveries chunks actions).map (fun x => x.1) = chunks := by
  cases chunks with
  | nil => rfl
  | cons first rest => simp [deliveries, Function.comp_def]

theorem deliveries_length (chunks : List Str) (actions : List Command) :
    (deliveries chunks actions).length = chunks.length := by
  cases chunks with
  | nil => rfl
  | cons first rest => simp [deliveries]

theorem pushTexts_successful {P : Type} (ev0 : Effect P) (pre mid : List (Effect P))
    (L : List (Str × List Command))
    (h0 : ev0.kind ≠ Kind.pushText) (hpre : ∀ ev ∈ pre, ev.kind ≠ Kind.pushText)
    (hmid : ∀ ev ∈ mid, ev.kind ≠ Kind.pushText) :
    pushTexts (ev0 :: (pre ++ mid ++ L.map pushed)) = L.map (fun x => (x.1, x.2, none)) := by
  have h1 : pushTexts [ev0] = [] := pushTexts_eq_nil [ev0] (by simpa using h0)
  have : ev0 :: (pre ++ mid ++ L.map pushed) = [ev0] ++ pre ++ mid ++ L.map pushed := by simp
  rw [this, pushTexts_append, pushTexts_append, pushTexts_append, h1, pushTexts_eq_nil pre hpre,
    pushTexts_eq_nil mid hmid, pushTexts_map_pushed]
  simp

theorem committed_kind_ne_pushText {σ P : Type} (c : Collaborators σ P) (context : Context)
    (prompt : P) (completion : Completion) (patched : P) :
    ∀ ev ∈ committed c context prompt completion patched, ev.kind ≠ Kind.pushText := by
  intro ev hev
  simp only [committed, List.mem_cons, List.mem_singleton, List.not_mem_nil, or_false] at hev
  rcases hev with rfl | rfl | rfl | rfl <;> simp [Effect.kind]

/-! ## Actions and order of the pushes -/

/-- C4: in a gated run in which no collaborator call fails and the completion
text is a non-empty string, the first `pushText` call carries exactly one
action, `COMMAND_BOT_FORGET` when `isFinishReasonStop` is true and
`COMMAND_BOT_CONTINUE` when it is false, and every later `pushText` call of the
run carries the empty action list. -/
theorem first_push_carries_the_action {σ P : Type} (c : Collaborators σ P)
    (context : Context) (w : σ) (prompt : P) (t : Str) (stop : Bool)
    (hgate : check context = true)
    (hok : ∀ ev ∈ (runExec c context w).2.trace, ev.threw = none)
    (hgen : Effect.generateCompletion prompt (Except.ok ⟨JSText.str t, stop⟩)
      ∈ (runExec c context w).2.trace)
    (hne : t ≠ []) :
    ∃ first rest, pushTexts (runExec c context w).2.trace = first :: rest
      ∧ first.2.1
          = [if stop = true then Command.COMMAND_BOT_FORGET else Command.COMMAND_BOT_CONTINUE]
      ∧ ∀ x ∈ rest, x.2.1 = [] := by
  obtain ⟨p0, pre, patched, hkind, _, htr⟩ :=
    successful_run c context w prompt t stop hgate hok hgen
  rw [htr, pushTexts_successful _ _ _ _ (by simp [Effect.kind])
    (writes_kind_ne pre _ hkind (by simp) (by simp))
    (committed_kind_ne_pushText c context prompt _ patched)]
  have hlen : (chunksOf t).length ≠ 0 := by
    rw [(chunksOf_length t)]
    have : 0 < t.length := List.length_pos.2 hne
    omega
  cases hch : chunksOf t with
  | nil => simp [hch] at hlen
  | cons ch rest =>
    refine ⟨(ch, actionsFor stop, none), rest.map (fun x => (x, [], none)), ?_, ?_, ?_⟩
    · simp [deliveries, Function.comp_def]
    · cases stop <;> simp [actionsFor]
    · intro x hx
      rcases List.mem_map.1 hx with ⟨y, _, rfl⟩
      rfl

/-! ## An empty or absent completion text -/

/-- C10, as the code has it: in a gated run in which no collaborator call fails
and the completion text is the empty string, the chunk array is empty and
`exec` calls neither `pushText` nor `pushError`, and returns the context. -/
theorem empty_text_pushes_nothing {σ P : Type} (c : Collaborators σ P)
    (context : Context) (w : σ) (prompt : P) (stop : Bool)
    (hgate : check context = true)
    (hok : ∀ ev ∈ (runExec c context w).2.trace, ev.threw = none)
    (hgen : Effect.generateCompletion prompt (Except.ok ⟨JSText.str [], stop⟩)
      ∈ (runExec c context w).2.trace) :
    chunksOf [] = []
      ∧ callCount Kind.pushText (runExec c context w).2.trace = 0
      ∧ callCount Kind.pushError (runExec c context w).2.trace = 0
      ∧ (runExec c context w).1 = Except.ok (ExecResult.handled context) := by
  obtain ⟨p0, pre, patched, hkind, hr, htr⟩ :=
    successful_run c context w prompt [] stop hgate hok hgen
  have hch : chunksOf [] = [] := rfl
  rw [htr, hch]
  refine ⟨rfl, ?_, ?_, hr⟩
  · rw [callCount_cons, callCount_append, callCount_append,
      callCount_writes pre _ hkind (by simp) (by simp)]
    simp [committed, deliveries, callCount_cons, callCount_nil, Effect.kind]
  · rw [callCount_cons, callCount_append, callCount_append,
      callCount_writes pre _ hkind (by simp) (by simp)]
    simp [committed, deliveries, callCount_cons, callCount_nil, Effect.kind]

/-- C10, the counterexample: the gate passes and every collaborator call
succeeds, the completion resolves with `text` undefined, and `exec` still calls
`pushError`, once, with the `TypeError` that `text.match` raises. -/
theorem absent_text_is_reported_as_error :
    check helloContext = true
      ∧ (∀ ev ∈ (sampleRun ⟨storedPrompt, false,
            Except.ok ⟨JSText.undefined, true⟩, none⟩).2.trace, ev.threw = none)
      ∧ Effect.generateCompletion openedPrompt (Except.ok ⟨JSText.undefined, true⟩)
          ∈ (sampleRun ⟨storedPrompt, false, Except.ok ⟨JSText.undefined, true⟩, none⟩).2.trace
      ∧ callCount Kind.pushError
          (sampleRun ⟨storedPrompt, false, Except.ok ⟨JSText.undefined, true⟩, none⟩).2.trace = 1
      ∧ Effect.pushError Err.typeError
          ∈ (sampleRun ⟨storedPrompt, false, Except.ok ⟨JSText.undefined, true⟩, none⟩).2.trace := by
  decide

/-! ## Failures and the `catch` block -/

theorem failsLast_threw {P : Type} (e e1 : Err) (l : List (Effect P)) (ev : Effect P)
    (h : FailsLast e l) (hev : ev ∈ l) (hthrew : ev.threw = some e1) : e1 = e := by
  obtain ⟨good, bad, rfl, hgood, hbad⟩ := h
  rcases List.mem_append.1 hev with hm | hm
  · rw [hgood ev hm] at hthrew
    simp at hthrew
  · simp only [List.mem_singleton] at hm
    subst hm
    rw [hbad] at hthrew
    exact (Option.some.inj hthrew).symm

theorem failsLast_append {P : Type} (e : Err) (pre post : List (Effect P))
    (hpre : ∀ ev ∈ pre, ev.threw = none) (h : FailsLast e post) : FailsLast e (pre ++ post) := by
  obtain ⟨good, bad, rfl, hgood, hbad⟩ := h
  refine ⟨pre ++ good, bad, by simp, ?_, hbad⟩
  intro ev hm
  rcases List.mem_append.1 hm with h1 | h1
  · exact hpre ev h1
  · exact hgood ev h1

/-- The `try` body never calls `pushError`, and either none of its calls throws
or the body ends with the error of its last call. -/
theorem tryRun_summary {σ P : Type} (c : Collaborators σ P) (context : Context)
    (r : Except Err Unit) (tr : List (Effect P)) (h : TryRun c context r tr) :
    callCount Kind.pushError tr = 0
      ∧ ((∀ ev ∈ tr, ev.threw = none) ∨ (∃ e, r = Except.error e ∧ FailsLast e tr)) := by
  obtain ⟨pre, hkind, hcase⟩ := h
  have k5 := callCount_writes pre Kind.pushError hkind (by simp) (by simp)
  rcases hcase with ⟨e1, hre, htr1, hfl⟩ | ⟨p2, post, hpre, htr1, hcomp⟩
  · subst htr1
    exact ⟨k5, Or.inr ⟨e1, hre, hfl⟩⟩
  · subst htr1
    rcases hcomp with ⟨e1, hre, hpost⟩ | ⟨comp, e1, hre, _, hpost⟩
      | ⟨comp, p3, e1, hre, _, hpost⟩ | ⟨comp, p3, e1, hre, _, hpost⟩
      | ⟨comp, p3, _, _, hre, hpost⟩ | ⟨comp, p3, t, _, _, hre, hpost⟩
      | ⟨comp, p3, t, j, x, e1, _, _, _, hre, hpost⟩
    · subst hpost
      refine ⟨by simp [callCount_append, callCount_cons, callCount_nil, k5, Effect.kind],
        Or.inr ⟨e1, hre, failsLast_append e1 pre _ hpre ⟨[], _, rfl, by simp, rfl⟩⟩⟩
    · subst hpost
      refine ⟨by simp [callCount_append, callCount_cons, callCount_nil, k5, Effect.kind],
        Or.inr ⟨e1, hre, failsLast_append e1 pre _ hpre
          ⟨[Effect.generateCompletion p2 (Except.ok comp)], _, rfl, ?_, rfl⟩⟩⟩
      simp [Effect.threw, Effect.errorOf]
    · subst hpost
      refine ⟨by simp [callCount_append, callCount_cons, callCount_nil, k5, Effect.kind],
        Or.inr ⟨e1, hre, failsLast_append e1 pre _ hpre
          ⟨[Effect.generateCompletion p2 (Except.ok comp),
            Effect.patch p2 comp.text (Except.ok p3)], _, rfl, ?_, rfl⟩⟩⟩
      simp [Effect.threw, Effect.errorOf]
    · subst hpost
      refine ⟨by simp [callCount_append, callCount_cons, callCount_nil, k5, Effect.kind],
        Or.inr ⟨e1, hre, failsLast_append e1 pre _ hpre
          ⟨[Effect.generateCompletion p2 (Except.ok comp),
            Effect.patch p2 comp.text (Except.ok p3),
            Effect.setPrompt context.userId p3 (Except.ok ())], _, rfl, ?_, rfl⟩⟩⟩
      simp [Effect.threw, Effect.errorOf]
    · subst hpost
      refine ⟨by simp [callCount_append, callCount_cons, callCount_nil, k5, Effect.kind,
        committed], Or.inl ?_⟩
      intro ev hm
      rcases List.mem_append.1 hm with h1 | h1
      · exact hpre ev h1
      · simp only [committed, List.mem_cons, List.mem_singleton, List.not_mem_nil,
          or_false] at h1
        rcases h1 with rfl | rfl | rfl | rfl <;> rfl
    · subst hpost
      refine ⟨by simp [callCount_append, callCount_cons, callCount_nil, k5, Effect.kind,
        committed, callCount_map_pushed], Or.inl ?_⟩
      intro ev hm
      rcases List.mem_append.1 hm with h1 | h1
      · exact hpre ev h1
      · rcases List.mem_append.1 h1 with h2 | h2
        · simp only [committed, List.mem_cons, List.mem_singleton, List.not_mem_nil,
            or_false] at h2
          rcases h2 with rfl | rfl | rfl | rfl <;> rfl
        · rcases List.mem_map.1 h2 with ⟨y, _, rfl⟩
          rfl
    · subst hpost
      refine ⟨by simp [callCount_append, callCount_cons, callCount_nil, k5, Effect.kind,
        committed, callCount_take_map_pushed], Or.inr ⟨e1, hre, failsLast_append e1 pre _ hpre
          ⟨_, _, rfl, ?_, rfl⟩⟩⟩
      intro ev h1
      rcases List.mem_append.1 h1 with h2 | h2
      · simp only [committed, List.mem_cons, List.mem_singleton, List.not_mem_nil,
          or_false] at h2
        rcases h2 with rfl | rfl | rfl | rfl <;> rfl
      · rcases List.mem_map.1 h2 with ⟨y, _, rfl⟩
        rfl

/-- C6, the counterexample: the gate passes and `getPrompt` throws; `exec`
raises that error to its caller and does not call `pushError`. -/
theorem getPrompt_failure_is_raised :
    check helloContext = true
      ∧ (sampleRun ⟨storedPrompt, true, Except.ok ⟨JSText.str [72, 105], true⟩, none⟩).2.trace
        = [Effect.getPrompt helloContext.userId (Except.error (Err.thrown 1))]
      ∧ (sampleRun ⟨storedPrompt, true, Except.ok ⟨JSText.str [72, 105], true⟩, none⟩).1
        = Except.error (Err.thrown 1)
      ∧ callCount Kind.pushError
          (sampleRun ⟨storedPrompt, true,
            Except.ok ⟨JSText.str [72, 105], true⟩, none⟩).2.trace = 0 := by
  refine ⟨by decide, by decide, rfl, by decide⟩

/-- C6, as the code has it: in a gated run, a failure of any call inside the
`try` block (writing to the prompt, `generateCompletion`, `patch`, `setPrompt`,
`updateHistory`, any `pushText` call) is not raised to the caller: `exec`
calls `pushError` exactly once, with that error, and returns the context. -/
theorem failure_inside_try_is_reported {σ P : Type} (c : Collaborators σ P)
    (context : Context) (w : σ) (ev : Effect P) (e : Err)
    (hgate : check context = true)
    (hev : ev ∈ (runExec c context w).2.trace)
    (hthrew : ev.threw = some e)
    (hkind : ev.kind ≠ Kind.getPrompt) :
    (runExec c context w).1 = Except.ok (ExecResult.handled context)
      ∧ callCount Kind.pushError (runExec c context w).2.trace = 1
      ∧ Effect.pushError e ∈ (runExec c context w).2.trace := by
  rcases runExec_gated c context w hgate with
    ⟨e0, hr, htr⟩ | ⟨p0, r, tr, htry, hr, htr⟩
  · rw [htr] at hev
    simp only [List.mem_singleton] at hev
    subst hev
    exact absurd rfl hkind
  · obtain ⟨k5, hsum⟩ := tryRun_summary c context r tr htry
    rw [htr] at hev ⊢
    have hmem : ev ∈ tr := by
      rcases List.mem_cons.1 hev with h | h
      · subst h
        exact absurd rfl hkind
      · rcases List.mem_append.1 h with h1 | h1
        · exact h1
        · cases r with
          | ok u => simp [caught] at h1
          | error e1 =>
            simp only [caught, List.mem_cons, List.mem_singleton, List.not_mem_nil,
              or_false] at h1
            rcases h1 with rfl | rfl <;> simp [Effect.threw] at hthrew
    rcases hsum with hall | ⟨e1, hre, hfl⟩
    · rw [hall ev hmem] at hthrew
      simp at hthrew
    · have := failsLast_threw e1 e tr ev hfl hmem hthrew
      subst this hre
      refine ⟨hr, ?_, ?_⟩
      · simp [callCount_cons, callCount_append, callCount_nil, caught, Effect.kind, k5]
      · simp [caught]

/-! ## A push that fails -/

theorem pushTexts_caught {P : Type} (r : Except Err Unit) :
    pushTexts (caught r : List (Effect P)) = [] := by
  cases r <;> rfl

theorem pushTexts_gated {P : Type} (ev0 : Effect P) (pre post tail : List (Effect P))
    (h0 : ev0.kind ≠ Kind.pushText)
    (hkind : ∀ ev ∈ pre, ev.kind = Kind.write ∨ ev.kind = Kind.writeImage) :
    pushTexts (ev0 :: (pre ++ post ++ tail)) = pushTexts post ++ pushTexts tail := by
  have h1 : pushTexts [ev0] = [] := pushTexts_eq_nil [ev0] (by simpa using h0)
  have h2 : pushTexts pre = [] :=
    pushTexts_eq_nil pre (writes_kind_ne pre _ hkind (by simp) (by simp))
  have : ev0 :: (pre ++ post ++ tail) = [ev0] ++ pre ++ post ++ tail := by simp
  rw [this, pushTexts_append, pushTexts_append, pushTexts_append, h1, h2]
  simp

theorem failed_at_index (L : List (Str × List Command)) (i j : Nat) (x : Str × List Command)
    (e1 e : Err) (text : Str) (actions : List Command)
    (hi : L[i]? = some x)
    (hfail : ((L.take i).map (fun y => (y.1, y.2, (none : Option Err)))
        ++ [(x.1, x.2, some e1)])[j]? = some (text, actions, some e)) :
    j = i ∧ text = x.1 ∧ actions = x.2 ∧ e = e1 := by
  have hlt : i < L.length := (List.getElem?_eq_some.1 hi).1
  have hlen : ((L.take i).map (fun y => (y.1, y.2, (none : Option Err)))).length = i := by
    rw [List.length_map, List.length_take]
    omega
  by_cases h : j < i
  · rw [List.getElem?_append_left (by omega)] at hfail
    rw [List.getElem?_map] at hfail
    cases hq : (List.take i L)[j]? with
    | none => simp [hq] at hfail
    | some y => simp [hq] at hfail
  · rw [List.getElem?_append_right (by omega), hlen] at hfail
    have hz : j - i = 0 := by
      by_contra hne
      obtain ⟨k, hk⟩ := Nat.exists_eq_succ_of_ne_zero hne
      rw [hk] at hfail
      simp at hfail
    rw [hz] at hfail
    simp only [List.getElem?_cons_zero, Option.some.injEq, Prod.mk.injEq] at hfail
    obtain ⟨h1, h2, h3⟩ := hfail
    exact ⟨by omega, h1.symm, h2.symm, h3.symm⟩

/-- C9: in a gated run whose completion text `t` splits into `k` chunks, if the
`pushText` call number `j` (from 0) fails with `e`, then `j < k`, `pushText` is
called exactly `j + 1` times in the run, with the chunks `0..j` in order, the
calls before it completed normally, `pushError` is called exactly once, and
the failing call is followed by the log and the error notice only: the one
`setPrompt` call and the one `updateHistory` call made before delivery stay as
they are. -/
theorem failed_push_abandons_turn {σ P : Type} (c : Collaborators σ P)
    (context : Context) (w : σ) (prompt : P) (t : Str) (stop : Bool) (j : Nat)
    (text : Str) (actions : List Command) (e : Err)
    (hgate : check context = true)
    (hgen : Effect.generateCompletion prompt (Except.ok ⟨JSText.str t, stop⟩)
      ∈ (runExec c context w).2.trace)
    (hfail : (pushTexts (runExec c context w).2.trace)[j]? = some (text, actions, some e)) :
    j < (chunksOf t).length
      ∧ (pushTexts (runExec c context w).2.trace).map (fun x => x.1) = (chunksOf t).take (j + 1)
      ∧ callCount Kind.pushText (runExec c context w).2.trace = j + 1
      ∧ (∀ i x, i < j → (pushTexts (runExec c context w).2.trace)[i]? = some x → x.2.2 = none)
      ∧ callCount Kind.pushError (runExec c context w).2.trace = 1
      ∧ ∃ before, (runExec c context w).2.trace
            = before ++ [Effect.pushText text actions (Except.error e),
                Effect.consoleError e, Effect.pushError e]
          ∧ callCount Kind.setPrompt before = 1
          ∧ callCount Kind.updateHistory before = 1 := by
  rcases runExec_gated c context w hgate with
    ⟨e0, hr, htr⟩ | ⟨p0, r, tr, ⟨pre, hkind, hcase⟩, hr, htr⟩
  · rw [htr] at hgen
    simp at hgen
  · rw [htr] at hgen hfail ⊢
    have hpre := not_mem_writes pre
      (Effect.generateCompletion prompt (Except.ok ⟨JSText.str t, stop⟩)) hkind
      (by simp [Effect.kind]) (by simp [Effect.kind])
    have htake := not_mem_take_pushed (P := P)
      (Effect.generateCompletion prompt (Except.ok ⟨JSText.str t, stop⟩))
      (by simp [Effect.kind])
    have k1 := callCount_writes pre Kind.pushText hkind (by simp) (by simp)
    have k2 := callCount_writes pre Kind.pushError hkind (by simp) (by simp)
    have k3 := callCount_writes pre Kind.setPrompt hkind (by simp) (by simp)
    have k4 := callCount_writes pre Kind.updateHistory hkind (by simp) (by simp)
    rcases hcase with ⟨e1, hre, htr1, _⟩ | ⟨p2, post, _, htr1, hcomp⟩
    · subst hre htr1
      simp [caught, hpre] at hgen
    · subst htr1
      rw [pushTexts_gated _ _ _ _ (by simp [Effect.kind]) hkind, pushTexts_caught,
        List.append_nil] at hfail
      rw [pushTexts_gated _ _ _ _ (by simp [Effect.kind]) hkind, pushTexts_caught,
        List.append_nil]
      rcases hcomp with ⟨e1, hre, hpost⟩ | ⟨comp, e1, hre, _, hpost⟩
        | ⟨comp, p3, e1, hre, _, hpost⟩ | ⟨comp, p3, e1, hre, _, hpost⟩
        | ⟨comp, p3, _, _, hre, hpost⟩ | ⟨comp, p3, t1, _, _, hre, hpost⟩
        | ⟨comp, p3, t1, i, x, e1, htext, _, hi, hre, hpost⟩
      · subst hre hpost
        simp [pushTexts, Effect.pushTextCall] at hfail
      · subst hre hpost
        simp [pushTexts, Effect.pushTextCall] at hfail
      · subst hre hpost
        simp [pushTexts, Effect.pushTextCall] at hfail
      · subst hre hpost
        simp [pushTexts, Effect.pushTextCall] at hfail
      · subst hre hpost
        simp [pushTexts, Effect.pushTextCall, committed] at hfail
      · subst hre hpost
        rw [pushTexts_append,
          pushTexts_eq_nil _ (committed_kind_ne_pushText c context p2 comp p3),
          pushTexts_map_pushed, List.nil_append, List.getElem?_map] at hfail
        cases hq : (deliveries (chunksOf t1) (actionsFor comp.isFinishReasonStop))[j]? with
        | none => simp [hq] at hfail
        | some y => simp [hq] at hfail
      · subst hre hpost
        simp [caught, committed, pushed, hpre, htake] at hgen
        obtain ⟨rfl, rfl⟩ := hgen
        simp only [JSText.str.injEq] at htext
        subst htext
        have hpt : pushTexts (committed c context prompt ⟨JSText.str t, stop⟩ p3
              ++ List.map pushed (List.take i (deliveries (chunksOf t) (actionsFor stop)))
              ++ [Effect.pushText x.1 x.2 (Except.error e1)])
            = (List.take i (deliveries (chunksOf t) (actionsFor stop))).map
                (fun y => (y.1, y.2, (none : Option Err)))
              ++ [(x.1, x.2, some e1)] := by
          rw [pushTexts_append, pushTexts_append,
            pushTexts_eq_nil _ (committed_kind_ne_pushText c context prompt _ p3),
            pushTexts_map_pushed, List.nil_append]
          rfl
        rw [hpt] at hfail ⊢
        obtain ⟨rfl, rfl, rfl, rfl⟩ := failed_at_index _ i j x e1 e text actions hi hfail
        have hlt : j < (deliveries (chunksOf t) (actionsFor stop)).length :=
          (List.getElem?_eq_some.1 hi).1
        have hlen : (List.take j (deliveries (chunksOf t) (actionsFor stop))).length = j := by
          rw [List.length_take]
          omega
        have hx : (chunksOf t)[j]? = some x.1 := by
          rw [← deliveries_map_fst (chunksOf t) (actionsFor stop), List.getElem?_map, hi]
          rfl
        refine ⟨by rw [deliveries_length] at hlt; exact hlt, ?_, ?_, ?_, ?_, ?_⟩
        · rw [List.map_append, List.map_map, List.take_succ, hx]
          have : (List.take j (deliveries (chunksOf t) (actionsFor stop))).map
              ((fun x => x.1) ∘ fun y => (y.1, y.2, (none : Option Err)))
              = List.take j (chunksOf t) := by
            have hfun : ((fun x : Str × List Command × Option Err => x.1)
                ∘ fun y : Str × List Command => (y.1, y.2, (none : Option Err)))
                = fun y => y.1 := rfl
            rw [hfun, List.map_take, deliveries_map_fst]
          rw [this]
          rfl
        · rw [callCount_cons, callCount_append, callCount_append, callCount_append,
            callCount_append, callCount_map_pushed, k1]
          simp [committed, caught, callCount_cons, callCount_nil, Effect.kind, hlen]
        · intro i0 y hi0 hy
          rw [List.getElem?_append_left (by rw [List.length_map, hlen]; exact hi0),
            List.getElem?_map] at hy
          cases hq : (List.take j (deliveries (chunksOf t) (actionsFor stop)))[i0]? with
          | none => simp [hq] at hy
          | some z =>
            simp [hq] at hy
            rw [← hy]
        · rw [callCount_cons, callCount_append, callCount_append, callCount_append,
            callCount_append, callCount_map_pushed, k2]
          simp [committed, caught, callCount_cons, callCount_nil, Effect.kind]
        · refine ⟨Effect.getPrompt context.userId (Except.ok p0)
            :: (pre ++ (committed c context prompt ⟨JSText.str t, stop⟩ p3
              ++ List.map pushed (List.take j (deliveries (chunksOf t) (actionsFor stop))))),
            by simp [caught], ?_, ?_⟩
          · rw [callCount_cons, callCount_append, callCount_append, callCount_map_pushed, k3]
            simp [committed, callCount_cons, callCount_nil, Effect.kind]
          · rw [callCount_cons, callCount_append, callCount_append, callCount_map_pushed, k4]
            simp [committed, callCount_cons, callCount_nil, Effect.kind]

/-! ## The prompt stored after a text turn -/

theorem setPromptCalls_append {P : Type} (l1 l2 : List (Effect P)) :
    setPromptCalls (l1 ++ l2) = setPromptCalls l1 ++ setPromptCalls l2 := by
  simp [setPromptCalls, List.filterMap_append]

theorem setPromptCalls_eq_nil {P : Type} (l : List (Effect P))
    (h : ∀ ev ∈ l, ev.kind ≠ Kind.setPrompt) : setPromptCalls l = [] := by
  induction l with
  | nil => rfl
  | cons ev l ih =>
    have hl := ih (fun x hx => h x (List.mem_cons_of_mem _ hx))
    have hev := h ev (List.mem_cons_self _ _)
    unfold setPromptCalls at hl ⊢
    cases ev <;> simp_all [Effect.setPromptCall, Effect.kind]

theorem setPromptCalls_pushed {P : Type} (L : List (Str × List Command)) :
    setPromptCalls (L.map (pushed : _ → Effect P)) = [] := by
  apply setPromptCalls_eq_nil
  intro ev hm
  rcases List.mem_map.1 hm with ⟨y, _, rfl⟩
  simp [pushed, Effect.kind]

theorem setPromptCalls_caught {P : Type} (r : Except Err Unit) :
    setPromptCalls (caught r : List (Effect P)) = [] := by
  cases r <;> rfl

theorem patch_fills_new_placeholder (prior : Prompt) (human : Entry) (r : Str) :
    Prompt.patch (Prompt.write (prior ++ [human]) Role.ROLE_AI none) r
      = prior ++ [human, ⟨Role.ROLE_AI, some r, false⟩] := by
  simp [Prompt.patch, Prompt.write, fillFirstOpen]

/-- A gated run on a text event whose prompt follows spec §3: `getPrompt`
throws, or the two writes of lines 45-50 succeed and lines 59-84 run on the
prompt with the new human entry and the open placeholder. -/
theorem text_turn_run {σ : Type} (c : Collaborators σ Prompt) (context : Context) (w : σ)
    (hgate : check context = true)
    (htext : context.event.isText = true) (himage : context.event.isImage = false)
    (hwrite : ∀ p role text s, c.write p role text s = (Except.ok (Prompt.write p role text), s)) :
    (∃ e0, (runExec c context w).2.trace
        = [Effect.getPrompt context.userId (Except.error e0)])
      ∨ (∃ p0 r post,
          CompletionRun c context
            (Prompt.write (Prompt.write p0 Role.ROLE_HUMAN
              (some (c.tone ++ context.trimmedText))) Role.ROLE_AI none) r post
          ∧ (runExec c context w).2.trace
            = [Effect.getPrompt context.userId (Except.ok p0),
                Effect.write p0 Role.ROLE_HUMAN (some (c.tone ++ context.trimmedText))
                  (Except.ok (Prompt.write p0 Role.ROLE_HUMAN
                    (some (c.tone ++ context.trimmedText)))),
                Effect.write (Prompt.write p0 Role.ROLE_HUMAN
                    (some (c.tone ++ context.trimmedText))) Role.ROLE_AI none
                  (Except.ok (Prompt.write (Prompt.write p0 Role.ROLE_HUMAN
                    (some (c.tone ++ context.trimmedText))) Role.ROLE_AI none))]
              ++ post ++ caught r) := by
  unfold runExec
  rw [exec_run, if_pos hgate]
  rcases hgp : c.getPrompt context.userId w with ⟨r0, w1⟩
  cases r0 with
  | error e0 => exact Or.inl ⟨e0, rfl⟩
  | ok p0 =>
    right
    simp only [List.nil_append]
    have hbody : ∀ st : Run σ Prompt, tryBody c context p0 st
        = completionBlock c context
            (Prompt.write (Prompt.write p0 Role.ROLE_HUMAN
              (some (c.tone ++ context.trimmedText))) Role.ROLE_AI none)
            ⟨st.world, st.trace ++
              [Effect.write p0 Role.ROLE_HUMAN (some (c.tone ++ context.trimmedText))
                  (Except.ok (Prompt.write p0 Role.ROLE_HUMAN
                    (some (c.tone ++ context.trimmedText)))),
                Effect.write (Prompt.write p0 Role.ROLE_HUMAN
                    (some (c.tone ++ context.trimmedText))) Role.ROLE_AI none
                  (Except.ok (Prompt.write (Prompt.write p0 Role.ROLE_HUMAN
                    (some (c.tone ++ context.trimmedText))) Role.ROLE_AI none))]⟩ := by
      intro st
      rw [tryBody_eq]
      simp [bind_run, textBlock, imageBlock, htext, himage, call_run, hwrite, pure_run]
    rw [hbody]
    obtain ⟨post, ht, hr⟩ := completionBlock_run c context
      (Prompt.write (Prompt.write p0 Role.ROLE_HUMAN
        (some (c.tone ++ context.trimmedText))) Role.ROLE_AI none)
      ⟨w1, [Effect.getPrompt context.userId (Except.ok p0)] ++
        [Effect.write p0 Role.ROLE_HUMAN (some (c.tone ++ context.trimmedText))
            (Except.ok (Prompt.write p0 Role.ROLE_HUMAN
              (some (c.tone ++ context.trimmedText)))),
          Effect.write (Prompt.write p0 Role.ROLE_HUMAN
              (some (c.tone ++ context.trimmedText))) Role.ROLE_AI none
            (Except.ok (Prompt.write (Prompt.write p0 Role.ROLE_HUMAN
              (some (c.tone ++ context.trimmedText))) Role.ROLE_AI none))]⟩
    rcases hb : completionBlock c context
      (Prompt.write (Prompt.write p0 Role.ROLE_HUMAN
        (some (c.tone ++ context.trimmedText))) Role.ROLE_AI none)
      ⟨w1, [Effect.getPrompt context.userId (Except.ok p0)] ++
        [Effect.write p0 Role.ROLE_HUMAN (some (c.tone ++ context.trimmedText))
            (Except.ok (Prompt.write p0 Role.ROLE_HUMAN
              (some (c.tone ++ context.trimmedText)))),
          Effect.write (Prompt.write p0 Role.ROLE_HUMAN
              (some (c.tone ++ context.trimmedText))) Role.ROLE_AI none
            (Except.ok (Prompt.write (Prompt.write p0 Role.ROLE_HUMAN
              (some (c.tone ++ context.trimmedText))) Role.ROLE_AI none))]⟩ with ⟨r, st2⟩
    rw [hb] at ht hr
    simp only at ht hr
    refine ⟨p0, r, post, hr, ?_⟩
    cases r <;> simp [ht, caught]

/-- C8: for a text event that passes the gate, with the prompt of spec §3
(`write` appends an entry, `write(ROLE_AI)` opens a placeholder, `patch` fills
the most recently opened placeholder): when `getPrompt` returns the entries
`prior` and the completion resolves to the text `r`, `exec` calls `setPrompt`
once, under `context.userId`, with the prior entries followed by one
`ROLE_HUMAN` entry whose text is the tone prefix followed by
`context.trimmedText` and one `ROLE_AI` entry whose text is `r`. -/
theorem stored_prompt_after_text_turn {σ : Type} (c : Collaborators σ Prompt)
    (context : Context) (w : σ) (prior prompt : Prompt) (r : Str) (stop : Bool)
    (hgate : check context = true)
    (htext : context.event.isText = true) (himage : context.event.isImage = false)
    (hwrite : ∀ p role text s, c.write p role text s = (Except.ok (Prompt.write p role text), s))
    (hpatch : ∀ p t s, c.patch p (JSText.str t) s = (Except.ok (Prompt.patch p t), s))
    (hprior : Effect.getPrompt context.userId (Except.ok prior) ∈ (runExec c context w).2.trace)
    (hgen : Effect.generateCompletion prompt (Except.ok ⟨JSText.str r, stop⟩)
      ∈ (runExec c context w).2.trace) :
    setPromptCalls (runExec c context w).2.trace
      = [(context.userId,
          prior ++ [⟨Role.ROLE_HUMAN, some (c.tone ++ context.trimmedText), false⟩,
            ⟨Role.ROLE_AI, some r, false⟩])] := by
  rcases text_turn_run c context w hgate htext himage hwrite with
    ⟨e0, htr⟩ | ⟨p0, res, post, hcomp, htr⟩
  · rw [htr] at hgen
    simp at hgen
  · rw [htr] at hgen hprior ⊢
    have htakeg := not_mem_take_pushed (P := Prompt)
      (Effect.generateCompletion prompt (Except.ok ⟨JSText.str r, stop⟩))
      (by simp [Effect.kind])
    have htakep := not_mem_take_pushed (P := Prompt)
      (Effect.getPrompt context.userId (Except.ok prior)) (by simp [Effect.kind])
    have hfill : ∀ q : Prompt,
        Prompt.patch (Prompt.write (Prompt.write q Role.ROLE_HUMAN
          (some (c.tone ++ context.trimmedText))) Role.ROLE_AI none) r
        = q ++ [⟨Role.ROLE_HUMAN, some (c.tone ++ context.trimmedText), false⟩,
            ⟨Role.ROLE_AI, some r, false⟩] := by
      intro q
      exact patch_fills_new_placeholder q _ r
    rcases hcomp with ⟨e1, hre, hpost⟩ | ⟨comp, e1, hre, ⟨w1, hw1⟩, hpost⟩
      | ⟨comp, p3, e1, hre, ⟨w1, hw1⟩, hpost⟩ | ⟨comp, p3, e1, hre, ⟨w1, hw1⟩, hpost⟩
      | ⟨comp, p3, hnot, _, hre, hpost⟩ | ⟨comp, p3, t1, htext1, ⟨w1, hw1⟩, hre, hpost⟩
      | ⟨comp, p3, t1, j, x, e1, htext1, ⟨w1, hw1⟩, _, hre, hpost⟩
    · subst hre hpost
      simp [caught] at hgen
    · subst hre hpost
      simp [caught] at hgen
      obtain ⟨_, rfl⟩ := hgen
      rw [hpatch] at hw1
      simp at hw1
    · subst hre hpost
      simp [caught] at hgen hprior
      obtain ⟨_, rfl⟩ := hgen
      subst hprior
      rw [hpatch, hfill] at hw1
      simp only [Except.ok.injEq] at hw1
      subst hw1
      simp [setPromptCalls, Effect.setPromptCall, caught]
    · subst hre hpost
      simp [caught] at hgen hprior
      obtain ⟨_, rfl⟩ := hgen
      subst hprior
      rw [hpatch, hfill] at hw1
      simp only [Except.ok.injEq] at hw1
      subst hw1
      simp [setPromptCalls, Effect.setPromptCall, caught]
    · subst hre hpost
      simp [caught, committed] at hgen
      obtain ⟨_, rfl⟩ := hgen
      exact absurd rfl (hnot r)
    · subst hre hpost
      simp [caught, committed, pushed] at hgen hprior
      obtain ⟨_, rfl⟩ := hgen
      subst hprior
      rw [hpatch, hfill] at hw1
      simp only [Except.ok.injEq] at hw1
      subst hw1
      rw [setPromptCalls_append, setPromptCalls_append, setPromptCalls_append,
        setPromptCalls_pushed, setPromptCalls_caught]
      simp [setPromptCalls, Effect.setPromptCall, committed]
    · subst hre hpost
      simp [caught, committed, pushed, htakeg, htakep] at hgen hprior
      obtain ⟨_, rfl⟩ := hgen
      subst hprior
      rw [hpatch, hfill] at hw1
      simp only [Except.ok.injEq] at hw1
      subst hw1
      rw [setPromptCalls_append, setPromptCalls_append, setPromptCalls_append,
        setPromptCalls_append, setPromptCalls_pushed, setPromptCalls_caught]
      simp [setPromptCalls, Effect.setPromptCall, committed]

/-! ## The run with promises follows the run of completed calls -/

theorem awaitedAtOnce_append {P : Type} (l1 l2 : List (Effect P)) :
    awaitedAtOnce (l1 ++ l2) = awaitedAtOnce l1 ++ awaitedAtOnce l2 := by
  simp [awaitedAtOnce, List.flatMap_append]

theorem awaitedAtOnce_snoc {P : Type} (l : List (Effect P)) (ev : Effect P) :
    awaitedAtOnce (l ++ [ev]) = awaitedAtOnce l ++ momentsOf ev := by
  simp [awaitedAtOnce, List.flatMap_append]

theorem timed_bind_run {σ P α β : Type} (m : Timed σ P α) (f : α → Timed σ P β)
    (st : TimedRun σ P) :
    (m >>= f) st
      = match m st with
        | (Except.ok a, st1) => f a st1
        | (Except.error e, st1) => (Except.error e, st1) :=
  rfl

theorem follows_pure {σ P α : Type} (a : α) :
    Follows (pure a : Timed σ P α) (pure a : Eff σ P α) := by
  intro w tr
  rfl

theorem follows_raise {σ P α : Type} (e : Err) :
    Follows (Timed.raise e : Timed σ P α) (Eff.raise e : Eff σ P α) := by
  intro w tr
  rfl

theorem follows_bind {σ P α β : Type} (mt : Timed σ P α) (m : Eff σ P α)
    (ft : α → Timed σ P β) (f : α → Eff σ P β)
    (h1 : Follows mt m) (h2 : ∀ a, Follows (ft a) (f a)) :
    Follows (mt >>= ft) (m >>= f) := by
  intro w tr
  rw [timed_bind_run, bind_run, h1 w tr]
  rcases hm : m ⟨w, tr⟩ with ⟨r, st1⟩
  cases r with
  | error e => rfl
  | ok a => exact h2 a st1.world st1.trace

theorem follows_tryCatch {σ P α : Type} (bt : Timed σ P α) (b : Eff σ P α)
    (ht : Err → Timed σ P α) (h : Err → Eff σ P α)
    (h1 : Follows bt b) (h2 : ∀ e, Follows (ht e) (h e)) :
    Follows (Timed.tryCatch bt ht) (Eff.tryCatch b h) := by
  intro w tr
  unfold Timed.tryCatch Eff.tryCatch
  rw [h1 w tr]
  rcases hm : b ⟨w, tr⟩ with ⟨r, st1⟩
  cases r with
  | error e => exact h2 e st1.world st1.trace
  | ok a => rfl

theorem follows_call {σ P α : Type} (f : σ → Except Err α × σ) (ev : Except Err α → Effect P)
    (hev : ∀ r, momentsOf (ev r) = [Moment.completed (ev r)]) :
    Follows (Timed.call f ev) (Eff.call f ev) := by
  intro w tr
  simp [Timed.call, Eff.call, awaitedAtOnce_snoc, hev]

theorem follows_notify {σ P : Type} (f : σ → σ) (ev : Effect P)
    (hev : momentsOf ev = [Moment.completed ev]) :
    Follows (Timed.notify f ev : Timed σ P Unit) (Eff.notify f ev) := by
  intro w tr
  simp [Timed.notify, Eff.notify, awaitedAtOnce_snoc, hev]

theorem follows_await {σ P α : Type} (issue : Awaited P) (f : σ → Except Err α × σ)
    (ev : Except Err α → Effect P)
    (hev : ∀ r, momentsOf (ev r) = [Moment.issued issue, Moment.completed (ev r)]) :
    Follows (Timed.start issue f >>= fun promise => Timed.await promise ev) (Eff.call f ev) := by
  intro w tr
  simp [timed_bind_run, Timed.start, Timed.await, Eff.call, awaitedAtOnce_snoc, hev]

theorem follows_await_bind {σ P α β : Type} (issue : Awaited P) (f : σ → Except Err α × σ)
    (ev : Except Err α → Effect P) (ft : α → Timed σ P β) (g : α → Eff σ P β)
    (hev : ∀ r, momentsOf (ev r) = [Moment.issued issue, Moment.completed (ev r)])
    (h2 : ∀ a, Follows (ft a) (g a)) :
    Follows (Timed.start issue f >>= fun promise => Timed.await promise ev >>= ft)
      (Eff.call f ev >>= g) := by
  intro w tr
  exact follows_bind _ _ _ _ (follows_await issue f ev hev) h2 w tr

theorem follows_textMatch {σ P : Type} (text : JSText) :
    Follows (Timed.textMatch text : Timed σ P _) (textMatch text) := by
  cases text with
  | undefined => exact follows_raise _
  | null => exact follows_raise _
  | str s => exact follows_pure _

theorem follows_pushRest {σ P : Type} (c : Collaborators σ P) (l : List Str) :
    Follows (Timed.pushRest c l) (pushRest c l) := by
  induction l with
  | nil => exact follows_pure _
  | cons chunk rest ih =>
    intro w tr
    have h := follows_bind _ _ _ _
      (follows_await (Awaited.pushText chunk []) (c.pushText chunk [])
        (Effect.pushText chunk []) (fun _ => rfl))
      (fun _ => ih) w tr
    exact h

theorem follows_tryBody {σ P : Type} (c : Collaborators σ P) (context : Context) (prompt : P) :
    Follows (Timed.tryBody c context prompt) (tryBody c context prompt) := by
  unfold Timed.tryBody tryBody
  refine follows_bind _ _ _ _ ?_ (fun p1 => follows_bind _ _ _ _ ?_ (fun p2 => ?_))
  · cases context.event.isText with
    | false => exact follows_pure _
    | true =>
      exact follows_bind _ _ _ _ (follows_call _ _ (fun _ => rfl))
        (fun p => follows_call _ _ (fun _ => rfl))
  · cases context.event.isImage with
    | false => exact follows_pure _
    | true =>
      exact follows_bind _ _ _ _ (follows_call _ _ (fun _ => rfl))
        (fun p => follows_call _ _ (fun _ => rfl))
  · refine follows_await_bind _ _ _ _ _ (fun _ => rfl) (fun completion => ?_)
    dsimp only
    refine follows_bind _ _ _ _ (follows_call _ _ (fun _ => rfl)) (fun patched => ?_)
    refine follows_bind _ _ _ _ (follows_call _ _ (fun _ => rfl)) (fun _ => ?_)
    refine follows_bind _ _ _ _ (follows_call _ _ (fun _ => rfl)) (fun _ => ?_)
    refine follows_bind _ _ _ _ (follows_textMatch _) (fun matched => ?_)
    cases hc : (orEmptyArray matched)[0]? with
    | none =>
      exact follows_bind _ _ _ _ (follows_pure _) (fun _ => follows_pushRest c _)
    | some first =>
      dsimp only
      cases truthy (some first) with
      | false =>
        exact follows_bind _ _ _ _ (follows_pure _) (fun _ => follows_pushRest c _)
      | true =>
        exact follows_await_bind _ _ _ _ _ (fun _ => rfl) (fun _ => follows_pushRest c _)

theorem follows_exec {σ P : Type} (c : Collaborators σ P) (context : Context) :
    Follows (Timed.exec c context) (exec c context) := by
  unfold Timed.exec exec
  cases check context with
  | false => exact follows_pure _
  | true =>
    refine follows_bind _ _ _ _ (follows_pure _) (fun _ => ?_)
    refine follows_bind _ _ _ _ (follows_call _ _ (fun _ => rfl)) (fun prompt => ?_)
    refine follows_bind _ _ _ _ ?_ (fun _ => follows_pure _)
    refine follows_tryCatch _ _ _ _ (follows_tryBody c context prompt) (fun err => ?_)
    exact follows_bind _ _ _ _ (follows_notify _ _ rfl) (fun _ => follows_notify _ _ rfl)

/-- The run with promises has the outcome and the final collaborator state of
the run of completed calls, and its timeline is that run's trace with every
awaited call issued right before it completes. -/
theorem runTimed_follows_runExec {σ P : Type} (c : Collaborators σ P) (context : Context)
    (w : σ) :
    (runTimed c context w).1 = (runExec c context w).1
      ∧ (runTimed c context w).2.world = (runExec c context w).2.world
      ∧ (runTimed c context w).2.timeline = awaitedAtOnce (runExec c context w).2.trace := by
  have h := follows_exec c context w []
  unfold runTimed runExec
  have h0 : (⟨w, awaitedAtOnce []⟩ : TimedRun σ P) = ⟨w, []⟩ := rfl
  rw [h0] at h
  rw [h]
  exact ⟨rfl, rfl, rfl⟩

/-! ## The pushes are awaited one by one -/

theorem completedCalls_awaitedAtOnce {P : Type} (l : List (Effect P)) :
    completedCalls (awaitedAtOnce l) = l := by
  induction l with
  | nil => rfl
  | cons ev l ih =>
    have hcons : awaitedAtOnce (ev :: l) = momentsOf ev ++ awaitedAtOnce l := by
      simp [awaitedAtOnce]
    have happ : ∀ l1 l2 : List (Moment P),
        completedCalls (l1 ++ l2) = completedCalls l1 ++ completedCalls l2 := by
      intro l1 l2
      simp [completedCalls, List.filterMap_append]
    rw [hcons, happ, ih]
    cases ev <;> rfl

theorem pushMoments_awaitedAtOnce {P : Type} (l : List (Effect P)) :
    pushMoments (awaitedAtOnce l)
      = (pushTexts l).flatMap
          (fun x => [PushMoment.issue x.1, PushMoment.settle x.1 x.2.2]) := by
  induction l with
  | nil => rfl
  | cons ev l ih =>
    have hcons : awaitedAtOnce (ev :: l) = momentsOf ev ++ awaitedAtOnce l := by
      simp [awaitedAtOnce]
    have happ : ∀ l1 l2 : List (Moment P),
        pushMoments (l1 ++ l2) = pushMoments l1 ++ pushMoments l2 := by
      intro l1 l2
      simp [pushMoments, List.filterMap_append]
    have hpt : pushTexts (ev :: l) = pushTexts [ev] ++ pushTexts l := by
      rw [← pushTexts_append]
      rfl
    rw [hcons, happ, ih, hpt, List.flatMap_append]
    congr 1
    cases ev <;> rfl

theorem alternating_prefix (chunks : List Str) (l1 l2 : List PushMoment) (text : Str)
    (h : chunks.flatMap (fun chunk => [PushMoment.issue chunk, PushMoment.settle chunk none])
      = l1 ++ PushMoment.issue text :: l2) :
    l1.countP PushMoment.isIssue = l1.countP PushMoment.isSettle := by
  induction chunks generalizing l1 with
  | nil =>
    simp at h
  | cons chunk rest ih =>
    rw [List.flatMap_cons] at h
    cases l1 with
    | nil => rfl
    | cons a l1 =>
      cases l1 with
      | nil =>
        simp at h
      | cons b l1 =>
        simp only [List.cons_append, List.nil_append, List.cons.injEq] at h
        obtain ⟨ha, hb, hrest⟩ := h
        subst ha hb
        have := ih l1 hrest
        simp [List.countP_cons, PushMoment.isIssue, PushMoment.isSettle, this]

/-- The timeline tells an awaited call from one that is not: two pushes that
are both issued before either is awaited show as two issues in a row. -/
theorem issues_without_await_overlap {σ P : Type} (c : Collaborators σ P) (w : σ)
    (a b : Str) :
    (pushMoments
        ((do
          let first ← Timed.start (Awaited.pushText a []) (c.pushText a [])
          let second ← Timed.start (Awaited.pushText b []) (c.pushText b [])
          Timed.await first (Effect.pushText a [])
          Timed.await second (Effect.pushText b []) : Timed σ P Unit) ⟨w, []⟩).2.timeline).take 2
      = [PushMoment.issue a, PushMoment.issue b] := by
  simp only [timed_bind_run, Timed.start, Timed.await]
  rcases h1 : c.pushText a [] w with ⟨r1, w1⟩
  cases r1 with
  | error e => rfl
  | ok u =>
    rcases h2 : c.pushText b [] w1 with ⟨r2, w2⟩
    cases r2 <;> simp [h1, h2, pushMoments, Moment.pushMoment]

theorem settled_pushes_flatMap (L : List (Str × List Command)) :
    ((L.map (fun x => (x.1, x.2, (none : Option Err)))).flatMap
        fun x => [PushMoment.issue x.1, PushMoment.settle x.1 x.2.2])
      = (L.map (fun x => x.1)).flatMap
          (fun chunk => [PushMoment.issue chunk, PushMoment.settle chunk none]) := by
  induction L with
  | nil => rfl
  | cons x L ih => simp [List.flatMap_cons, ih]

/-- C5: in a gated run in which no collaborator call fails, the texts passed to
`pushText`, in call order, are the chunks in chunk order, one call per chunk;
in the timeline of the run the pushes go issue of chunk 0, settling of chunk 0,
issue of chunk 1, settling of chunk 1, and so on, every promise settling
normally: whenever a `pushText` call is issued, the promise of every
`pushText` call issued before it has settled. -/
theorem pushes_are_awaited_in_chunk_order {σ P : Type} (c : Collaborators σ P)
    (context : Context) (w : σ) (prompt : P) (t : Str) (stop : Bool)
    (hgate : check context = true)
    (hok : ∀ ev ∈ completedCalls (runTimed c context w).2.timeline, ev.threw = none)
    (hgen : Effect.generateCompletion prompt (Except.ok ⟨JSText.str t, stop⟩)
      ∈ completedCalls (runTimed c context w).2.timeline) :
    (pushTexts (completedCalls (runTimed c context w).2.timeline)).map (fun x => x.1)
        = chunksOf t
      ∧ pushMoments (runTimed c context w).2.timeline
        = (chunksOf t).flatMap
            (fun chunk => [PushMoment.issue chunk, PushMoment.settle chunk none])
      ∧ ∀ (l1 l2 : List PushMoment) (text : Str),
          pushMoments (runTimed c context w).2.timeline = l1 ++ PushMoment.issue text :: l2 →
            l1.countP PushMoment.isIssue = l1.countP PushMoment.isSettle := by
  obtain ⟨_, _, htl⟩ := runTimed_follows_runExec c context w
  rw [htl] at hok hgen ⊢
  rw [completedCalls_awaitedAtOnce] at hok hgen ⊢
  obtain ⟨p0, pre, patched, hkind, _, htr⟩ :=
    successful_run c context w prompt t stop hgate hok hgen
  have hpush := pushTexts_successful (Effect.getPrompt context.userId (Except.ok p0)) pre
    (committed c context prompt ⟨JSText.str t, stop⟩ patched)
    (deliveries (chunksOf t) (actionsFor stop)) (by simp [Effect.kind])
    (writes_kind_ne pre _ hkind (by simp) (by simp))
    (committed_kind_ne_pushText c context prompt _ patched)
  have hmoments : pushMoments (awaitedAtOnce (runExec c context w).2.trace)
      = (chunksOf t).flatMap
          (fun chunk => [PushMoment.issue chunk, PushMoment.settle chunk none]) := by
    rw [pushMoments_awaitedAtOnce, htr, hpush, settled_pushes_flatMap,
      deliveries_map_fst]
  refine ⟨?_, hmoments, ?_⟩
  · rw [htr, hpush, List.map_map]
    exact deliveries_map_fst _ _
  · intro l1 l2 text hsplit
    rw [hmoments] at hsplit
    exact alternating_prefix (chunksOf t) l1 l2 text hsplit

/-! ## The theorems on sample runs -/

set_option maxRecDepth 200000

/-- The rejected completion of C7 on a sample run: the completion rejects with
error 3; no commit, no push, one error notice. -/
theorem completion_rejected_no_commit_witness :
    check helloContext = true
      ∧ Effect.generateCompletion openedPrompt (Except.error (Err.thrown 3))
          ∈ (sampleRun ⟨storedPrompt, false, Except.error (Err.thrown 3), none⟩).2.trace
      ∧ callCount Kind.setPrompt
          (sampleRun ⟨storedPrompt, false, Except.error (Err.thrown 3), none⟩).2.trace = 0
      ∧ callCount Kind.pushError
          (sampleRun ⟨storedPrompt, false, Except.error (Err.thrown 3), none⟩).2.trace = 1 :=
  ⟨by decide, by decide,
    (completion_rejected_no_commit
      (scripted ⟨storedPrompt, false, Except.error (Err.thrown 3), none⟩) helloContext 0
      openedPrompt (Err.thrown 3) (by decide) (by decide)).2.1,
    (completion_rejected_no_commit
      (scripted ⟨storedPrompt, false, Except.error (Err.thrown 3), none⟩) helloContext 0
      openedPrompt (Err.thrown 3) (by decide) (by decide)).2.2.2.2.1⟩

/-- The actions of C4 on a sample run that delivers the two chunks of
`longText` after a completion that stopped. -/
theorem first_push_carries_the_action_witness :
    check helloContext = true
      ∧ longText ≠ []
      ∧ ∃ first rest,
          pushTexts (sampleRun ⟨storedPrompt, false,
            Except.ok ⟨JSText.str longText, true⟩, none⟩).2.trace = first :: rest
          ∧ first.2.1 = [if true = true then Command.COMMAND_BOT_FORGET
              else Command.COMMAND_BOT_CONTINUE]
          ∧ ∀ x ∈ rest, x.2.1 = [] :=
  ⟨by decide, by decide,
    first_push_carries_the_action
      (scripted ⟨storedPrompt, false, Except.ok ⟨JSText.str longText, true⟩, none⟩)
      helloContext 0 openedPrompt longText true (by decide) (by decide) (by decide)
      (by decide)⟩

/-- The order of C5 on a sample run that delivers the two chunks of `longText`:
the second push is issued after the promise of the first has settled. -/
theorem pushes_are_awaited_in_chunk_order_witness :
    check helloContext = true
      ∧ Effect.generateCompletion openedPrompt (Except.ok ⟨JSText.str longText, false⟩)
          ∈ completedCalls (sampleTimedRun ⟨storedPrompt, false,
              Except.ok ⟨JSText.str longText, false⟩, none⟩).2.timeline
      ∧ pushMoments (sampleTimedRun ⟨storedPrompt, false,
            Except.ok ⟨JSText.str longText, false⟩, none⟩).2.timeline
          = (chunksOf longText).flatMap
              (fun chunk => [PushMoment.issue chunk, PushMoment.settle chunk none]) :=
  ⟨by decide, by decide,
    (pushes_are_awaited_in_chunk_order
      (scripted ⟨storedPrompt, false, Except.ok ⟨JSText.str longText, false⟩, none⟩)
      helloContext 0 openedPrompt longText false (by decide) (by decide) (by decide)).2.1⟩

/-- The containment of C6 on a sample run in which the only push fails. -/
theorem failure_inside_try_is_reported_witness :
    check helloContext = true
      ∧ Effect.pushText [72, 105] [Command.COMMAND_BOT_FORGET] (Except.error (Err.thrown 2))
          ∈ (sampleRun ⟨storedPrompt, false,
              Except.ok ⟨JSText.str [72, 105], true⟩, some 0⟩).2.trace
      ∧ (sampleRun ⟨storedPrompt, false, Except.ok ⟨JSText.str [72, 105], true⟩, some 0⟩).1
          = Except.ok (ExecResult.handled helloContext)
      ∧ callCount Kind.pushError
          (sampleRun ⟨storedPrompt, false,
            Except.ok ⟨JSText.str [72, 105], true⟩, some 0⟩).2.trace = 1
      ∧ Effect.pushError (Err.thrown 2)
          ∈ (sampleRun ⟨storedPrompt, false,
              Except.ok ⟨JSText.str [72, 105], true⟩, some 0⟩).2.trace :=
  ⟨by decide, by decide,
    failure_inside_try_is_reported
      (scripted ⟨storedPrompt, false, Except.ok ⟨JSText.str [72, 105], true⟩, some 0⟩)
      helloContext 0
      (Effect.pushText [72, 105] [Command.COMMAND_BOT_FORGET] (Except.error (Err.thrown 2)))
      (Err.thrown 2) (by decide) (by decide) (by decide) (by decide)⟩

/-- The stored prompt of C8 on a sample run: the stored exchange, the new human
entry and the AI entry with the completion text "Hi". -/
theorem stored_prompt_after_text_turn_witness :
    check helloContext = true
      ∧ setPromptCalls (sampleRun ⟨storedPrompt, false,
          Except.ok ⟨JSText.str [72, 105], true⟩, none⟩).2.trace
        = [(helloContext.userId,
            storedPrompt ++ [⟨Role.ROLE_HUMAN,
                some ((scripted ⟨storedPrompt, false,
                  Except.ok ⟨JSText.str [72, 105], true⟩, none⟩).tone
                  ++ helloContext.trimmedText), false⟩,
              ⟨Role.ROLE_AI, some [72, 105], false⟩])] :=
  ⟨by decide,
    stored_prompt_after_text_turn
      (scripted ⟨storedPrompt, false, Except.ok ⟨JSText.str [72, 105], true⟩, none⟩)
      helloContext 0 storedPrompt openedPrompt [72, 105] true (by decide) (by decide)
      (by decide) (fun _ _ _ _ => rfl) (fun _ _ _ => rfl) (by decide) (by decide)⟩

/-- The abandoned turn of C9 on a sample run: `longText` has two chunks and the
second push fails. -/
theorem failed_push_abandons_turn_witness :
    check helloContext = true
      ∧ (pushTexts (sampleRun ⟨storedPrompt, false,
            Except.ok ⟨JSText.str longText, true⟩, some 1⟩).2.trace)[1]?
          = some ([120], [], some (Err.thrown 2))
      ∧ callCount Kind.pushText
          (sampleRun ⟨storedPrompt, false,
            Except.ok ⟨JSText.str longText, true⟩, some 1⟩).2.trace = 1 + 1
      ∧ callCount Kind.pushError
          (sampleRun ⟨storedPrompt, false,
            Except.ok ⟨JSText.str longText, true⟩, some 1⟩).2.trace = 1 :=
  ⟨by decide, by decide,
    (failed_push_abandons_turn
      (scripted ⟨storedPrompt, false, Except.ok ⟨JSText.str longText, true⟩, some 1⟩)
      helloContext 0 openedPrompt longText true 1 [120] [] (Err.thrown 2)
      (by decide) (by decide) (by decide)).2.2.1,
    (failed_push_abandons_turn
      (scripted ⟨storedPrompt, false, Except.ok ⟨JSText.str longText, true⟩, some 1⟩)
      helloContext 0 openedPrompt longText true 1 [120] [] (Err.thrown 2)
      (by decide) (by decide) (by decide)).2.2.2.2.1⟩

/-- The empty text of C10 on a sample run: nothing is pushed and no error
notice is sent. -/
theorem empty_text_pushes_nothing_witness :
    check helloContext = true
      ∧ Effect.generateCompletion openedPrompt (Except.ok ⟨JSText.str [], false⟩)
          ∈ (sampleRun ⟨storedPrompt, false, Except.ok ⟨JSText.str [], false⟩, none⟩).2.trace
      ∧ callCount Kind.pushText
          (sampleRun ⟨storedPrompt, false, Except.ok ⟨JSText.str [], false⟩, none⟩).2.trace = 0
      ∧ callCount Kind.pushError
          (sampleRun ⟨storedPrompt, false, Except.ok ⟨JSText.str [], false⟩, none⟩).2.trace = 0 :=
  ⟨by decide, by decide,
    (empty_text_pushes_nothing
      (scripted ⟨storedPrompt, false, Except.ok ⟨JSText.str [], false⟩, none⟩)
      helloContext 0 openedPrompt false (by decide) (by decide) (by decide)).2.1,
    (empty_text_pushes_nothing
      (scripted ⟨storedPrompt, false, Except.ok ⟨JSText.str [], false⟩, none⟩)
      helloContext 0 openedPrompt false (by decide) (by decide) (by decide)).2.2.1⟩

end Talk
